import Mathlib

/-!
# Verification of the terrarium-irc conversational agent orchestrator

Shallow embedding of the Python sources of `terrarium-irc` (the bot command
layer `src/bot/commands.py`, the per-channel context manager
`src/llm/context_manager.py`, the tool executor `src/llm/tool_executor.py`,
and the response chunker `src/llm/context.py`) together with proofs of the
behavioural properties stated in the specification.

Python strings are modelled as `List Char` (`Str`); Python's unbounded
integers as `Int`/`Nat`.  External collaborators (the Model Endpoint HTTP
server, the SQLite transcript store, the filesystem) are modelled at their
interface boundary: the endpoint as a sequence of responses, the store as an
in-memory list of rows, the filesystem as a partial map from rendered paths
to file contents.
-/

/-- Python `str` modelled as a list of characters. -/
abbrev Str := List Char

namespace Py

/-- The ASCII whitespace characters recognised by Python's `str.strip` /
`str.split()` (the unicode cases are irrelevant to this code base). -/
def isWs (c : Char) : Bool :=
  c = ' ' || c = '\t' || c = '\n' || c = '\r' || c = '\x0b' || c = '\x0c'

/-- Python `str.strip()`: drop whitespace from both ends. -/
def strip (s : Str) : Str :=
  ((s.dropWhile isWs).reverse.dropWhile isWs).reverse

/-- Python `str.split(sep)` for a one-character separator: keeps empty
pieces, always returns at least one piece. -/
def splitOnChar (sep : Char) : Str → List Str
  | [] => [[]]
  | c :: cs =>
    let rest := splitOnChar sep cs
    if c = sep then [] :: rest
    else (c :: rest.headD []) :: rest.tail

/-- Accumulator worker for `words`. -/
def wordsAux : Str → Str → List Str
  | [], cur => if cur = [] then [] else [cur.reverse]
  | c :: cs, cur =>
    if isWs c then
      if cur = [] then wordsAux cs [] else cur.reverse :: wordsAux cs []
    else wordsAux cs (c :: cur)

/-- Python `str.split()` with no argument: split on whitespace runs,
dropping empty tokens. -/
def words (s : Str) : List Str := wordsAux s []

/-- Python `str.replace(p₁p₂, r₁r₂)` specialised to two-character patterns
and replacements (the only shape `split_long_response` uses): non-overlapping,
left-to-right. -/
def replacePair (p₁ p₂ r₁ r₂ : Char) : Str → Str
  | a :: b :: rest =>
    if a = p₁ && b = p₂ then r₁ :: r₂ :: replacePair p₁ p₂ r₁ r₂ rest
    else a :: replacePair p₁ p₂ r₁ r₂ (b :: rest)
  | s => s

/-- Python `str.startswith(prefix)`. -/
def startsWith (pre s : Str) : Bool := pre.isPrefixOf s

/-- Python `str.endswith(suffix)`. -/
def endsWith (suf s : Str) : Bool := suf.isSuffixOf s

/-- Python `needle in haystack` for strings (substring test). -/
def containsSub (needle s : Str) : Bool := (s.tails).any (startsWith needle)

/-- Python `c in s` for a single character. -/
def containsChar (c : Char) (s : Str) : Bool := s.contains c

end Py

/-! ## `ContextBuilder.split_long_response` (src/llm/context.py lines 128-177)

Direct translation.  The Python code first returns the text unchanged when it
fits, otherwise marks sentence ends by rewriting `". "`/`"! "`/`"? "` to
`".|"`/`"!|"`/`"?|"`, splits on `'|'`, accumulates sentences into chunks of at
most `max_length` characters, and finally re-splits any oversized chunk on
word boundaries. -/

/-- The sentence list: `response.replace('. ', '.|').replace('! ', '!|').replace('? ', '?|').split('|')`. -/
def sentencesOf (response : Str) : List Str :=
  Py.splitOnChar '|'
    (Py.replacePair '?' ' ' '?' '|'
      (Py.replacePair '!' ' ' '!' '|'
        (Py.replacePair '.' ' ' '.' '|' response)))

/-- The first accumulation loop of `split_long_response`: greedily pack
sentences into chunks of at most `maxLength` characters, stripping each
emitted chunk. -/
def sentencePass (maxLength : Nat) : List Str → Str → List Str
  | [], cur => if cur = [] then [] else [Py.strip cur]
  | s :: rest, cur =>
    if cur.length + s.length ≤ maxLength then sentencePass maxLength rest (cur ++ s)
    else if cur = [] then sentencePass maxLength rest s
    else Py.strip cur :: sentencePass maxLength rest s

/-- The second loop of `split_long_response`: split an oversized chunk on
word boundaries, joining words with single spaces. -/
def wordPass (maxLength : Nat) : List Str → Str → List Str
  | [], cur => if cur = [] then [] else [cur]
  | w :: ws, cur =>
    if cur.length + w.length + 1 ≤ maxLength then
      wordPass maxLength ws (if cur = [] then w else cur ++ ' ' :: w)
    else if cur = [] then wordPass maxLength ws w
    else cur :: wordPass maxLength ws w

/-- `ContextBuilder.split_long_response(response, max_length)`. -/
def splitLongResponse (response : Str) (maxLength : Nat) : List Str :=
  if response.length ≤ maxLength then [response]
  else
    let chunks := sentencePass maxLength (sentencesOf response) []
    (chunks.map (fun chunk =>
      if chunk.length ≤ maxLength then [chunk]
      else wordPass maxLength (Py.words chunk) [])).flatten

/-! ### Chunking lemmas (claim C6) -/

/-- The non-whitespace characters of a string, in order. -/
def keepNonWs (s : Str) : Str := s.filter (fun c => !Py.isWs c)

/-- The characters of a string that are neither whitespace nor `'|'`. -/
def keepCore (s : Str) : Str := s.filter (fun c => !Py.isWs c && c != '|')

lemma keepCore_cons (c : Char) (s : Str) :
    keepCore (c :: s) = if (!Py.isWs c && c != '|') = true then c :: keepCore s else keepCore s :=
  List.filter_cons ..

/-- Rewriting a two-character pattern whose second character is whitespace into
`p₁'|'` does not change the non-whitespace, non-bar characters. -/
lemma replacePair_keepCore (p₁ p₂ : Char) (hp : Py.isWs p₂ = true) (s : Str) :
    keepCore (Py.replacePair p₁ p₂ p₁ '|' s) = keepCore s := by
  induction s using Py.replacePair.induct p₁ p₂ p₁ '|' with
  | case1 a b rest hab ih =>
      simp only [Bool.and_eq_true, decide_eq_true_eq] at hab
      obtain ⟨rfl, rfl⟩ := hab
      have h1 : Py.replacePair a b a '|' (a :: b :: rest) = a :: '|' :: Py.replacePair a b a '|' rest := by
        simp [Py.replacePair]
      rw [h1, keepCore_cons, keepCore_cons, ih, keepCore_cons, keepCore_cons]
      simp [hp]
  | case2 a b rest hab ih =>
      have h1 : Py.replacePair p₁ p₂ p₁ '|' (a :: b :: rest) = a :: Py.replacePair p₁ p₂ p₁ '|' (b :: rest) := by
        simp only [Py.replacePair]
        rw [if_neg hab]
      rw [h1, keepCore_cons, ih, ← keepCore_cons]
  | case3 s h1 =>
      cases s with
      | nil => rfl
      | cons a t =>
        cases t with
        | nil => rfl
        | cons b r => exact (h1 a b r rfl).elim

lemma filter_dropWhileWs (p : Char → Bool) (hp : ∀ c, Py.isWs c = true → p c = false)
    (s : Str) : (s.dropWhile Py.isWs).filter p = s.filter p := by
  induction s with
  | nil => rfl
  | cons c cs ih =>
      simp only [List.dropWhile_cons]
      by_cases h : Py.isWs c
      · simp [h, List.filter_cons, hp c h, ih]
      · simp [h]

/-- `str.strip` only removes whitespace, so it commutes away under any filter
that rejects whitespace. -/
lemma filter_strip (p : Char → Bool) (hp : ∀ c, Py.isWs c = true → p c = false)
    (s : Str) : (Py.strip s).filter p = s.filter p := by
  unfold Py.strip
  rw [List.filter_reverse, filter_dropWhileWs p hp, List.filter_reverse,
    filter_dropWhileWs p hp, List.reverse_reverse]

lemma splitOnChar_ne_nil (sep : Char) (s : Str) : Py.splitOnChar sep s ≠ [] := by
  cases s with
  | nil => simp [Py.splitOnChar]
  | cons c cs =>
      simp only [Py.splitOnChar]
      split <;> simp

/-- Flattening the pieces of a character split recovers exactly the
non-separator characters. -/
lemma flatten_splitOnChar (sep : Char) (s : Str) :
    (Py.splitOnChar sep s).flatten = s.filter (fun c => c != sep) := by
  induction s with
  | nil => rfl
  | cons c cs ih =>
      obtain ⟨r₀, rs, hr⟩ := List.exists_cons_of_ne_nil (splitOnChar_ne_nil sep cs)
      simp only [Py.splitOnChar]
      by_cases h : c = sep
      · rw [if_pos h]
        simp [List.filter_cons, h, ih]
      · rw [if_neg h, hr]
        simp only [List.headD_cons, List.tail_cons, List.flatten_cons, List.cons_append]
        have h2 : r₀ ++ rs.flatten = cs.filter (fun c => c != sep) := by
          rw [← List.flatten_cons, ← hr, ih]
        simp [List.filter_cons, h, h2]

lemma wordsAux_noWs : ∀ (s acc : Str), (∀ c ∈ acc, Py.isWs c = false) →
    ∀ w ∈ Py.wordsAux s acc, ∀ c ∈ w, Py.isWs c = false := by
  intro s
  induction s with
  | nil =>
      intro acc hacc w hw
      unfold Py.wordsAux at hw
      split at hw
      · simp at hw
      · simp only [List.mem_singleton] at hw
        subst hw
        intro c hc
        exact hacc c (List.mem_reverse.mp hc)
  | cons a as ih =>
      intro acc hacc w hw
      unfold Py.wordsAux at hw
      by_cases h : Py.isWs a
      · rw [if_pos h] at hw
        split at hw
        · exact ih [] (by simp) w hw
        · rcases List.mem_cons.mp hw with h1 | h1
          · subst h1
            intro c hc
            exact hacc c (List.mem_reverse.mp hc)
          · exact ih [] (by simp) w h1
      · rw [if_neg h] at hw
        refine ih (a :: acc) ?_ w hw
        intro c hc
        rcases List.mem_cons.mp hc with h1 | h1
        · subst h1; exact Bool.eq_false_iff.mpr h
        · exact hacc c h1

lemma flatten_wordsAux : ∀ (s acc : Str),
    keepNonWs (Py.wordsAux s acc).flatten = keepNonWs (acc.reverse ++ s) := by
  intro s
  induction s with
  | nil =>
      intro acc
      unfold Py.wordsAux
      split
      · simp_all [keepNonWs]
      · simp [keepNonWs]
  | cons a as ih =>
      intro acc
      unfold Py.wordsAux
      by_cases h : Py.isWs a
      · rw [if_pos h]
        split
        · rw [ih []]
          simp_all [keepNonWs, List.filter_append, List.filter_cons, h]
        · simp only [List.flatten_cons]
          rw [keepNonWs, List.filter_append, ← keepNonWs, ← keepNonWs, ih []]
          simp [keepNonWs, List.filter_append, List.filter_cons, h]
      · rw [if_neg h, ih (a :: acc)]
        simp [keepNonWs, List.filter_append, List.filter_cons]

lemma flatten_words (s : Str) : keepNonWs (Py.words s).flatten = keepNonWs s := by
  have h := flatten_wordsAux s []
  simpa [Py.words] using h

lemma flatten_sentencePass (max : Nat) : ∀ (ss : List Str) (cur : Str),
    keepNonWs (sentencePass max ss cur).flatten = keepNonWs (cur ++ ss.flatten) := by
  intro ss
  induction ss with
  | nil =>
      intro cur
      unfold sentencePass
      split
      · simp_all [keepNonWs]
      · simp only [List.flatten_cons, List.flatten_nil, List.append_nil]
        rw [keepNonWs, filter_strip _ (by intro c hc; simp [hc])]
        simp [keepNonWs]
  | cons s rest ih =>
      intro cur
      unfold sentencePass
      split
      · rw [ih (cur ++ s)]
        simp [List.append_assoc]
      · split
        · rename_i hcur
          rw [ih s]
          subst hcur
          simp
        · simp only [List.flatten_cons]
          rw [keepNonWs, List.filter_append, filter_strip _ (by intro c hc; simp [hc]),
            ← keepNonWs, ← keepNonWs, ih s]
          simp [keepNonWs, List.filter_append, List.append_assoc]

lemma flatten_wordPass (max : Nat) : ∀ (ws : List Str) (cur : Str),
    keepNonWs (wordPass max ws cur).flatten = keepNonWs (cur ++ ws.flatten) := by
  intro ws
  induction ws with
  | nil =>
      intro cur
      unfold wordPass
      split <;> simp_all [keepNonWs]
  | cons w rest ih =>
      intro cur
      unfold wordPass
      split
      · rw [ih]
        by_cases h : cur = []
        · subst h; simp
        · rw [if_neg h]
          simp [keepNonWs, List.filter_append, List.filter_cons, Py.isWs, List.append_assoc]
      · split
        · rename_i hcur
          rw [ih w]
          subst hcur
          simp
        · simp only [List.flatten_cons]
          rw [keepNonWs, List.filter_append, ← keepNonWs, ← keepNonWs, ih w]
          simp [keepNonWs, List.filter_append, List.append_assoc]

lemma wordPass_pieces (max : Nat) : ∀ (ws : List Str) (cur : Str),
    (∀ w ∈ ws, ∀ c ∈ w, Py.isWs c = false) →
    (cur.length ≤ max ∨ ∀ c ∈ cur, Py.isWs c = false) →
    ∀ p ∈ wordPass max ws cur, p.length ≤ max ∨ ∀ c ∈ p, Py.isWs c = false := by
  intro ws
  induction ws with
  | nil =>
      intro cur _ hcur p hp
      unfold wordPass at hp
      split at hp
      · simp at hp
      · simp only [List.mem_singleton] at hp
        subst hp
        exact hcur
  | cons w rest ih =>
      intro cur hws hcur p hp
      have hw : ∀ c ∈ w, Py.isWs c = false := hws w (List.mem_cons_self ..)
      have hrest : ∀ w' ∈ rest, ∀ c ∈ w', Py.isWs c = false :=
        fun w' h => hws w' (List.mem_cons_of_mem _ h)
      unfold wordPass at hp
      split at hp
      · rename_i hfit
        refine ih _ hrest ?_ p hp
        left
        by_cases h : cur = []
        · subst h
          simpa using Nat.le_of_succ_le (by simpa using hfit)
        · rw [if_neg h]
          simp only [List.length_append, List.length_cons]
          omega
      · split at hp
        · exact ih w hrest (Or.inr hw) p hp
        · rcases List.mem_cons.mp hp with h1 | h1
          · subst h1; exact hcur
          · exact ih w hrest (Or.inr hw) p h1


/-- **C6 (amended).** `split_long_response` returns the text unsplit when it
fits the limit.  Otherwise every returned piece either fits the limit or is a
single whitespace-free token (so no word is ever broken mid-word, but a token
longer than the limit is emitted whole as an oversized piece), and the
concatenation of the pieces agrees with the original text on every character
that is neither whitespace nor `'|'` (the sentence splitter deletes literal
`'|'` characters, and whitespace can also be lost away from break points:
sentence-boundary spaces are dropped even inside a piece and runs of
whitespace collapse). -/
theorem c6_splitLongResponse_amended (response : Str) (maxLength : Nat)
    (hpos : 0 < maxLength) :
    (response.length ≤ maxLength → splitLongResponse response maxLength = [response]) ∧
    (∀ p ∈ splitLongResponse response maxLength,
      p.length ≤ maxLength ∨ ∀ c ∈ p, Py.isWs c = false) ∧
    (maxLength < response.length →
      keepNonWs (splitLongResponse response maxLength).flatten = keepCore response) := by
  refine ⟨?_, ?_, ?_⟩
  · intro h
    simp [splitLongResponse, h]
  · intro p hp
    unfold splitLongResponse at hp
    split at hp
    · rename_i hfit
      simp only [List.mem_singleton] at hp
      subst hp
      exact Or.inl hfit
    · rw [List.mem_flatten] at hp
      obtain ⟨l, hl, hpl⟩ := hp
      rw [List.mem_map] at hl
      obtain ⟨chunk, _, rfl⟩ := hl
      by_cases hc : chunk.length ≤ maxLength
      · rw [if_pos hc] at hpl
        simp only [List.mem_singleton] at hpl
        subst hpl
        exact Or.inl hc
      · rw [if_neg hc] at hpl
        exact wordPass_pieces maxLength (Py.words chunk) []
          (wordsAux_noWs chunk [] (by simp)) (Or.inl (by simp)) p hpl
  · intro h
    unfold splitLongResponse
    rw [if_neg (not_le.mpr h)]
    have hmap : ∀ (chunks : List Str),
        keepNonWs ((chunks.map (fun chunk =>
          if chunk.length ≤ maxLength then [chunk]
          else wordPass maxLength (Py.words chunk) [])).flatten).flatten
          = keepNonWs chunks.flatten := by
      intro chunks
      induction chunks with
      | nil => rfl
      | cons c cs ih =>
          simp only [List.map_cons, List.flatten_cons]
          rw [List.flatten_append, keepNonWs, List.filter_append, ← keepNonWs, ← keepNonWs, ih]
          by_cases hc : c.length ≤ maxLength
          · rw [if_pos hc]
            simp [keepNonWs, List.filter_append]
          · rw [if_neg hc, flatten_wordPass maxLength (Py.words c) [], List.nil_append,
              flatten_words]
            simp [keepNonWs, List.filter_append]
    rw [hmap, flatten_sentencePass maxLength _ [], List.nil_append, sentencesOf,
      flatten_splitOnChar, keepNonWs, List.filter_filter]
    show keepCore (Py.replacePair '?' ' ' '?' '|'
        (Py.replacePair '!' ' ' '!' '|' (Py.replacePair '.' ' ' '.' '|' response)))
      = keepCore response
    rw [replacePair_keepCore '?' ' ' (by decide), replacePair_keepCore '!' ' ' (by decide),
      replacePair_keepCore '.' ' ' (by decide)]

/-- **C6 counterexample.** The claim fails as stated: (a) a single word longer
than the limit is returned as a piece exceeding the limit (input `"abcdefgh"`,
limit 3); (b) concatenating the pieces does not reproduce the original up to
whitespace at break points — a literal non-whitespace `'|'` is deleted (input
`"ab|cd"`, limit 3), and (c) the space after a sentence boundary is lost
*inside* the first piece (`"a. b. …"` becomes piece `"a.b."`), not at a break
point. -/
theorem c6_splitLongResponse_counterexample :
    (splitLongResponse ("abcdefgh".data) 3 = ["abcdefgh".data] ∧
      3 < ("abcdefgh".data).length) ∧
    (splitLongResponse ("ab|cd".data) 3 = ["ab".data, "cd".data] ∧
      '|' ∈ ("ab|cd".data) ∧ ¬ '|' ∈ (["ab".data, "cd".data] : List Str).flatten) ∧
    splitLongResponse ("a. b. c d e f g".data) 10 = ["a.b.".data, "c d e f g".data] := by
  decide

/-- Witness for `c6_splitLongResponse_amended`: the hypothesis `0 < 3` holds
and the theorem applies at the concrete input `"hi there"` with limit 3. -/
theorem c6_splitLongResponse_witness :
    0 < 3 ∧
    ((("hi there".data).length ≤ 3 →
        splitLongResponse ("hi there".data) 3 = [("hi there".data)]) ∧
      (∀ p ∈ splitLongResponse ("hi there".data) 3,
        p.length ≤ 3 ∨ ∀ c ∈ p, Py.isWs c = false) ∧
      (3 < ("hi there".data).length →
        keepNonWs (splitLongResponse ("hi there".data) 3).flatten =
          keepCore ("hi there".data))) :=
  ⟨by decide, c6_splitLongResponse_amended ("hi there".data) 3 (by decide)⟩

/-! ## Conversation turns and API messages

The message dictionaries that flow between `commands.py`,
`context_manager.py` and the Model Endpoint have exactly three shapes in this
code base: plain `{role, content}` turns, assistant turns carrying structured
`tool_calls`, and tool-result turns `{role: "tool", tool_call_id, name,
content}`.  (`search_web`'s configuration and the `metadata` flag set by the
fallback path carry no behaviour relevant to any claim and are elided.) -/

/-- One entry of an assistant message's `tool_calls` array:
`{"id": …, "type": "function", "function": {"name": …, "arguments": …}}`
(the constant `"type": "function"` field is implicit). -/
structure ToolCallRec where
  id : Str
  name : Str
  arguments : Str
deriving DecidableEq, Repr

/-- A conversation turn / API message. -/
inductive Turn
  | plain (role : Str) (content : Str)
  | toolCall (content : Str) (calls : List ToolCallRec)
  | toolResult (id name content : Str)
deriving DecidableEq, Repr

/-- `msg.get("content", "")` — every turn shape in this code base carries a
string content. -/
def Turn.contentOf : Turn → Str
  | .plain _ c => c
  | .toolCall c _ => c
  | .toolResult _ _ c => c

/-- `msg["role"]` / `msg.get("role")`. -/
def Turn.roleOf : Turn → Str
  | .plain r _ => r
  | .toolCall _ _ => "assistant".data
  | .toolResult _ _ _ => "tool".data

/-! ## Token budgeting (src/bot/commands.py lines 25-118, claim C3) -/

def MODEL_CONTEXT_LIMIT : Int := 8192
def MIN_COMPLETION_TOKENS : Int := 128
def MAX_COMPLETION_TOKENS : Int := 512
def COMPLETION_BUFFER : Int := 256
def MAX_TOOL_ITERATIONS : Nat := 8
def TOOL_WARNING_ITERATION : Nat := 5

/-- `_estimate_prompt_tokens(messages)`: sum of content lengths plus 8 per
message, divided by 4, floored at 1. -/
def estimatePromptTokens (messages : List Turn) : Nat :=
  max 1 ((messages.foldl (fun acc m => acc + m.contentOf.length + 8) 0) / 4)

/-- `_determine_max_tokens(messages) -> (max_tokens, prompt_tokens)`. -/
def determineMaxTokens (messages : List Turn) : Int × Nat :=
  let promptTokens := estimatePromptTokens messages
  let available : Int := MODEL_CONTEXT_LIMIT - promptTokens - COMPLETION_BUFFER
  let maxTokens : Int :=
    if available ≤ 0 then 32
    else if available < MIN_COMPLETION_TOKENS then max 32 available
    else min MAX_COMPLETION_TOKENS available
  (maxTokens, promptTokens)

/-- **C3 (amended).** The completion budget is always between 32 and 512
(in particular never zero or negative) and is monotonically *non-increasing*
in the estimated prompt size.  (The claim's "≥ the defined minimum" holds
only for the hard floor 32, not for `MIN_COMPLETION_TOKENS = 128`, and
"strictly decreases" holds only in the intermediate regime — see the
counterexample.) -/
theorem c3_determineMaxTokens_amended (m m₁ m₂ : List Turn)
    (hle : estimatePromptTokens m₁ ≤ estimatePromptTokens m₂) :
    (32 ≤ (determineMaxTokens m).1 ∧ (determineMaxTokens m).1 ≤ 512) ∧
    (determineMaxTokens m₂).1 ≤ (determineMaxTokens m₁).1 := by
  unfold determineMaxTokens MODEL_CONTEXT_LIMIT MIN_COMPLETION_TOKENS
    MAX_COMPLETION_TOKENS COMPLETION_BUFFER
  constructor
  · dsimp only
    split_ifs <;> omega
  · dsimp only
    split_ifs <;> omega

/-- **C3 counterexample.** The budget does not strictly decrease as the
estimated prompt size grows: two message lists with estimates 2 and 27 both
get budget 512.  Moreover the budget can fall below the defined minimum
`MIN_COMPLETION_TOKENS = 128`: a one-message list with 31500 characters of
content gets budget 59. -/
lemma estimate_single_replicate (r : Str) (n : Nat) :
    estimatePromptTokens [Turn.plain r (List.replicate n 'a')] = max 1 ((n + 8) / 4) := by
  simp [estimatePromptTokens, Turn.contentOf, List.length_replicate]

theorem c3_determineMaxTokens_counterexample :
    estimatePromptTokens [Turn.plain ("user".data) ("a".data)] <
      estimatePromptTokens [Turn.plain ("user".data) (List.replicate 100 'a')] ∧
    (determineMaxTokens [Turn.plain ("user".data) ("a".data)]).1 = 512 ∧
    (determineMaxTokens [Turn.plain ("user".data) (List.replicate 100 'a')]).1 = 512 ∧
    (determineMaxTokens [Turn.plain ("user".data) (List.replicate 31500 'a')]).1 = 59 ∧
    (59 : Int) < MIN_COMPLETION_TOKENS := by
  have h100 : estimatePromptTokens [Turn.plain ("user".data) (List.replicate 100 'a')] = 27 := by
    rw [estimate_single_replicate]; decide
  have h31500 : estimatePromptTokens [Turn.plain ("user".data) (List.replicate 31500 'a')] = 7877 := by
    rw [estimate_single_replicate]; decide
  refine ⟨?_, by decide, ?_, ?_, by decide⟩
  · rw [h100]; decide
  · rw [determineMaxTokens, h100]; decide
  · rw [determineMaxTokens, h31500]; decide

/-- Witness for `c3_determineMaxTokens_amended` at concrete message lists. -/
theorem c3_determineMaxTokens_witness :
    estimatePromptTokens [Turn.plain ("user".data) ("a".data)] ≤
      estimatePromptTokens [Turn.plain ("user".data) ("aaaa".data)] ∧
    ((32 ≤ (determineMaxTokens [Turn.plain ("user".data) ("hi".data)]).1 ∧
        (determineMaxTokens [Turn.plain ("user".data) ("hi".data)]).1 ≤ 512) ∧
      (determineMaxTokens [Turn.plain ("user".data) ("aaaa".data)]).1 ≤
        (determineMaxTokens [Turn.plain ("user".data) ("a".data)]).1) :=
  ⟨by decide, c3_determineMaxTokens_amended _ _ _ (by decide)⟩

/-! ## Search-mode classification (claim C9)

`ToolExecutor._search_chat_logs` (src/llm/tool_executor.py lines 91-97)
classifies the query with `query.startswith('"') and query.endswith('"')`,
while `CommandHandler.cmd_search` (src/bot/commands.py lines 438-446)
classifies it with `re.match(r'^"(.+)"$', query)`.  Below the `'+'` check the
two are character-for-character the same. -/

inductive SearchMode
  | andAll
  | orAny
  | phrase
deriving DecidableEq, Repr

/-- Mode classification of `_search_chat_logs`. -/
def toolSearchMode (query : Str) : SearchMode :=
  if Py.startsWith ['"'] query && Py.endsWith ['"'] query then .phrase
  else if Py.containsChar '+' query then .orAny
  else .andAll

/-- `re.match(r'^"(.+)"$', q)` against the exact end of the string: a leading
quote, a nonempty middle containing no newline (`.` does not match `\n`), and
a trailing quote. -/
def quoteExact (q : Str) : Bool :=
  decide (3 ≤ q.length) && Py.startsWith ['"'] q && Py.endsWith ['"'] q &&
    !Py.containsChar '\n' ((q.drop 1).dropLast)

/-- `re.match(r'^"(.+)"$', q)`: Python's `$` also matches just before one
trailing newline. -/
def cmdQuoteMatch (q : Str) : Bool :=
  quoteExact q || (Py.endsWith ['\n'] q && quoteExact q.dropLast)

/-- Mode classification of `cmd_search`. -/
def cmdSearchMode (query : Str) : SearchMode :=
  if cmdQuoteMatch query then .phrase
  else if Py.containsChar '+' query then .orAny
  else .andAll

/-- **C9 counterexample.** The two classifiers disagree on the one-character
query `"` (a lone double quote): the tool classifier sees a string that both
starts and ends with a quote and picks phrase mode, while the command's regex
`^"(.+)"$` requires a nonempty quoted middle and falls through to AND mode. -/
theorem c9_searchMode_counterexample :
    toolSearchMode ['"'] = SearchMode.phrase ∧
    cmdSearchMode ['"'] = SearchMode.andAll ∧
    toolSearchMode ['"'] ≠ cmdSearchMode ['"'] := by
  decide

/-- **C9 (amended).** For every query that contains no newline and is not the
degenerate one- or two-character all-quote string, the mode chosen by the
`search_chat_logs` tool equals the mode chosen by the user-facing `!search`
command.  (The excluded queries are exactly where the classifiers disagree:
`"` and `""` are phrase to the tool but AND to the command, a quoted middle
containing a newline is phrase to the tool but not to the regex, and a
trailing newline can satisfy the regex but not the tool's `endswith`.) -/
theorem c9_searchMode_amended (q : Str) (h1 : ¬ '\n' ∈ q)
    (h2 : q ≠ ['"']) (h3 : q ≠ ['"', '"']) :
    toolSearchMode q = cmdSearchMode q := by
  have hnl : Py.endsWith ['\n'] q = false := by
    cases hq : Py.endsWith ['\n'] q
    · rfl
    · exfalso
      apply h1
      have hs : ['\n'] <:+ q := List.isSuffixOf_iff_suffix.mp hq
      exact hs.subset (List.mem_singleton.mpr rfl)
  have hmid : Py.containsChar '\n' ((q.drop 1).dropLast) = false := by
    cases hq : Py.containsChar '\n' ((q.drop 1).dropLast)
    · rfl
    · exfalso
      apply h1
      have hm : '\n' ∈ (q.drop 1).dropLast := List.elem_iff.mp hq
      exact List.drop_subset 1 q (List.dropLast_subset _ hm)
  cases hs : (Py.startsWith ['"'] q && Py.endsWith ['"'] q) with
  | true =>
      have hab := hs
      rw [Bool.and_eq_true] at hab
      obtain ⟨hpre, hsuf⟩ := hab
      have hlen : 3 ≤ q.length := by
        obtain ⟨t, rfl⟩ := List.isPrefixOf_iff_prefix.mp hpre
        cases t with
        | nil => exact absurd rfl h2
        | cons x t' =>
            cases t' with
            | nil =>
                obtain ⟨u, hu⟩ := List.isSuffixOf_iff_suffix.mp hsuf
                have hx : '"' = x := by simpa using congrArg List.getLast? hu
                exact absurd (by rw [← hx]; rfl) h3
            | cons y t'' => simp [List.length_cons]
      have hq : cmdQuoteMatch q = true := by
        rw [List.drop_one] at hmid
        unfold cmdQuoteMatch quoteExact
        simp [hpre, hsuf, hlen, hmid]
      unfold toolSearchMode cmdSearchMode
      rw [hs, hq]
  | false =>
      have hq : cmdQuoteMatch q = false := by
        unfold cmdQuoteMatch quoteExact
        rw [hnl]
        rcases Bool.and_eq_false_iff.mp hs with h | h <;> simp [h]
      unfold toolSearchMode cmdSearchMode
      rw [hs, hq]

/-- Witness for `c9_searchMode_amended` at the quoted query `"docker"` (both
classifiers pick phrase mode). -/
theorem c9_searchMode_witness :
    (¬ '\n' ∈ ("\"docker\"".data) ∧ ("\"docker\"".data) ≠ ['"'] ∧
      ("\"docker\"".data) ≠ ['"', '"']) ∧
    toolSearchMode ("\"docker\"".data) = cmdSearchMode ("\"docker\"".data) :=
  ⟨⟨by decide, by decide, by decide⟩,
    c9_searchMode_amended ("\"docker\"".data) (by decide) (by decide) (by decide)⟩

/-! ## Fallback textual tool-call parsing (src/bot/commands.py lines 9-89, claim C8)

`_parse_fallback_tool_request` runs two regex searches —
`<tool_result[^>]*>\s*(?P<body>.*?)\s*</tool_result>` (case-insensitive,
dot-all) and `(?P<name>[a-zA-Z_][\w]*)\s*\((?P<args>[^)]*)\)` — and then
splits the argument list on commas not followed by `[^()]*\)`, coercing each
value with `_coerce_fallback_value`.  The regexes are embedded as explicit
left-to-right scanners with the same leftmost-match semantics.  (`\w` and
`\s` are modelled at ASCII; the tool names and delimiters in play are all
ASCII.) -/

/-- A Python value as produced by `_coerce_fallback_value`.  Python floats are
modelled by their exact decimal value as a rational (only the *type* of the
coercion matters to the spec). -/
inductive PyVal
  | str (s : Str)
  | int (n : Int)
  | float (q : ℚ)
  | bool (b : Bool)
  | none
deriving DecidableEq, Repr

/-- Value of a (possibly empty) all-digit string. -/
def digitsOrZero (cs : Str) : Nat :=
  cs.foldl (fun acc c => acc * 10 + (c.toNat - '0'.toNat)) 0

/-- `int(s)` on a stripped string: optional sign then nonempty ASCII digits.
(Python also accepts underscore separators and unicode digits; those never
arise here and are rejected by the model.) -/
def pyIntOf (s : Str) : Option Int :=
  let mag : Str → Option Int := fun t =>
    if t ≠ [] && t.all Char.isDigit then some (digitsOrZero t : Int) else Option.none
  match s with
  | '+' :: rest => mag rest
  | '-' :: rest => (mag rest).map Neg.neg
  | _ => mag s

/-- `float(s)` on a stripped string that contains a `'.'`: optional sign,
digits, one dot, digits, at least one digit overall (`1.5`, `.5`, `5.`).
Exponent forms are rejected by the model. -/
def pyFloatOf (s : Str) : Option ℚ :=
  let mag : Str → Option ℚ := fun t =>
    match Py.splitOnChar '.' t with
    | [a, b] =>
      if (a.all Char.isDigit && b.all Char.isDigit) && !(a = [] && b = []) then
        some ((digitsOrZero a : ℚ) + (digitsOrZero b : ℚ) / ((10 : ℚ) ^ b.length))
      else Option.none
    | _ => Option.none
  match s with
  | '+' :: rest => mag rest
  | '-' :: rest => (mag rest).map Neg.neg
  | _ => mag s

/-- `_coerce_fallback_value(raw)`. -/
def coerceFallbackValue (raw : Str) : PyVal :=
  let value := Py.strip raw
  if value = [] then .str []
  else if (Py.startsWith ['"'] value && Py.endsWith ['"'] value) ||
      (Py.startsWith ['\''] value && Py.endsWith ['\''] value) then
    .str ((value.drop 1).dropLast)
  else
    let lowered := value.map Char.toLower
    if lowered = ("none".data) || lowered = ("null".data) then .none
    else if lowered = ("true".data) || lowered = ("false".data) then
      .bool (lowered = ("true".data))
    else if Py.containsChar '.' value then
      match pyFloatOf value with
      | some q => .float q
      | Option.none => .str value
    else
      match pyIntOf value with
      | some n => .int n
      | Option.none => .str value

/-- Lower-case a string (ASCII), for the case-insensitive regexes. -/
def lowerStr (s : Str) : Str := s.map Char.toLower

/-- Index of the first occurrence of a character. -/
def idxOfChar (c : Char) : Str → Option Nat
  | [] => Option.none
  | x :: xs => if x = c then some 0 else (idxOfChar c xs).map (· + 1)

/-- Index of the first case-insensitive occurrence of `needle`. -/
def idxOfCiSub (needle : Str) : Str → Option Nat
  | [] => if needle = [] then some 0 else Option.none
  | x :: xs =>
    if Py.startsWith (lowerStr needle) (lowerStr (x :: xs)) then some 0
    else (idxOfCiSub needle xs).map (· + 1)

/-- Attempt the `<tool_result[^>]*>` … `</tool_result>` match anchored at the
start of `u`: the literal open tag (case-insensitive), greedy `[^>]*` up to
the first `'>'`, then the body up to the first case-insensitive closing tag.
Returns the raw body span (the caller strips it, subsuming the `\s*` trims in
the pattern). -/
def tryToolResultAt (u : Str) : Option Str :=
  if Py.startsWith (lowerStr ("<tool_result".data)) (lowerStr u) then
    let rest := u.drop ("<tool_result".data).length
    match idxOfChar '>' rest with
    | Option.none => Option.none
    | some j =>
      let after := rest.drop (j + 1)
      match idxOfCiSub ("</tool_result>".data) after with
      | Option.none => Option.none
      | some k => some (after.take k)
  else Option.none

/-- `_TOOL_RESULT_PATTERN.search(text)`: leftmost match wins. -/
def searchToolResult : Str → Option Str
  | [] => Option.none
  | c :: cs =>
    match tryToolResultAt (c :: cs) with
    | some b => some b
    | Option.none => searchToolResult cs

def isWordStart (c : Char) : Bool := c.isAlpha || c = '_'

def isWordChar (c : Char) : Bool := c.isAlphanum || c = '_'

/-- Attempt the `name\s*\(args\)` match anchored at the start of `u`. -/
def tryFuncAt (u : Str) : Option (Str × Str) :=
  match u with
  | [] => Option.none
  | c :: _ =>
    if isWordStart c then
      let name := u.takeWhile isWordChar
      let rest := (u.drop name.length).dropWhile Py.isWs
      match rest with
      | '(' :: rest2 =>
        match idxOfChar ')' rest2 with
        | some j => some (name, rest2.take j)
        | Option.none => Option.none
      | _ => Option.none
    else Option.none

/-- `_FUNCTION_CALL_PATTERN.search(candidate)`: leftmost match wins. -/
def searchFuncCall : Str → Option (Str × Str)
  | [] => Option.none
  | c :: cs =>
    match tryFuncAt (c :: cs) with
    | some r => some r
    | Option.none => searchFuncCall cs

/-- The negative lookahead `(?![^()]*\))` at a split comma: the lookahead
*succeeds* (suppressing the split) iff the first parenthesis character in the
remainder is `')'`. -/
def lookaheadCloses (rest : Str) : Bool :=
  match rest.dropWhile (fun c => !(c = '(' || c = ')')) with
  | ')' :: _ => true
  | _ => false

def splitArgsAux : Str → Str → List Str
  | [], cur => [cur.reverse]
  | c :: cs, cur =>
    if c = ',' && !lookaheadCloses cs then cur.reverse :: splitArgsAux cs []
    else splitArgsAux cs (c :: cur)

/-- `re.split(r",(?![^()]*\))", args_str)`. -/
def splitArgs (s : Str) : List Str := splitArgsAux s []

/-- Python dict insertion: overwrite in place or append. -/
def insertArg (args : List (Str × PyVal)) (k : Str) (v : PyVal) : List (Str × PyVal) :=
  if args.any (fun kv => kv.1 = k) then
    args.map (fun kv => if kv.1 = k then (k, v) else kv)
  else args ++ [(k, v)]

def FALLBACK_TOOL_NAMES : List Str :=
  [("search_chat_logs".data), ("get_current_users".data),
    ("create_enhancement_request".data), ("list_enhancement_requests".data),
    ("read_enhancement_request".data), ("search_web".data)]

/-- The argument-dict loop of `_parse_fallback_tool_request`. -/
def parseArgsStr (argsStr : Str) : List (Str × PyVal) :=
  let stripped := Py.strip argsStr
  if stripped = [] then []
  else
    (splitArgs stripped).foldl (fun args part =>
      if part = [] || !Py.containsChar '=' part then args
      else
        let key := part.takeWhile (fun c => c ≠ '=')
        let value := (part.dropWhile (fun c => c ≠ '=')).drop 1
        insertArg args (Py.strip key) (coerceFallbackValue (Py.strip value))) []

/-- `_parse_fallback_tool_request(content)`. -/
def parseFallbackToolRequest (content : Str) : Option (Str × List (Str × PyVal)) :=
  if content = [] then Option.none
  else
    let text := Py.strip content
    let candidate :=
      match searchToolResult text with
      | some body => Py.strip body
      | Option.none => text
    match searchFuncCall candidate with
    | Option.none => Option.none
    | some (toolName, argsStr) =>
      if toolName ∈ FALLBACK_TOOL_NAMES then some (toolName, parseArgsStr argsStr)
      else Option.none

/-- **C8 (confirmed).** On the exact spec text
`tool_result> search_chat_logs(query="docker", hours=24) </tool_result`
(malformed delimiters) and on the properly delimited variant, the fallback
parser extracts `search_chat_logs` with `query = "docker"` (quotes stripped,
string-typed) and `hours = 24` typed as an integer; and
`_coerce_fallback_value` strips quotes, coerces `true`/`false`/`none`/`null`
case-insensitively to booleans/null, coerces numeric-looking values to int or
float, and leaves everything else a string. -/
theorem c8_parseFallback_confirmed :
    parseFallbackToolRequest
        ("tool_result> search_chat_logs(query=\"docker\", hours=24) </tool_result".data)
      = some (("search_chat_logs".data),
        [(("query".data), PyVal.str ("docker".data)), (("hours".data), PyVal.int 24)]) ∧
    parseFallbackToolRequest
        ("<tool_result> search_chat_logs(query=\"docker\", hours=24) </tool_result>".data)
      = some (("search_chat_logs".data),
        [(("query".data), PyVal.str ("docker".data)), (("hours".data), PyVal.int 24)]) ∧
    coerceFallbackValue ("\"quoted\"".data) = PyVal.str ("quoted".data) ∧
    coerceFallbackValue ("TRUE".data) = PyVal.bool true ∧
    coerceFallbackValue ("False".data) = PyVal.bool false ∧
    coerceFallbackValue ("None".data) = PyVal.none ∧
    coerceFallbackValue ("NULL".data) = PyVal.none ∧
    coerceFallbackValue ("24".data) = PyVal.int 24 ∧
    coerceFallbackValue ("-7".data) = PyVal.int (-7) ∧
    coerceFallbackValue ("2.5".data) = PyVal.float (5 / 2 : ℚ) ∧
    coerceFallbackValue ("hello".data) = PyVal.str ("hello".data) := by
  have hf : coerceFallbackValue ("2.5".data)
      = PyVal.float ((2 : ℚ) + (5 : ℚ) / (10 : ℚ) ^ (1 : Nat)) := by rfl
  refine ⟨by decide, by decide, by decide, by decide, by decide, by decide, by decide,
    by decide, by decide, ?_, by decide⟩
  rw [hf]
  norm_num

/-! ## Durable persistence of conversation turns (claims C2, C5)

`ChannelContext.add_*` (src/llm/context_manager.py lines 141-219) persist a
turn as a `(role, content)` row: plain turns store their text verbatim,
tool-call turns store `json.dumps` of the whole message, tool-result turns
store `json.dumps` of the result dict.  `ChannelContext.load` (lines 35-71)
rehydrates a row whose stripped content looks like a JSON object (`{`…`}`)
and whose parsed `role` equals the row role.

The JSON codec below is `json.dumps`/`json.loads` restricted to the shapes
this persister emits (string values with `"`/`\` escapes; the canonical key
order of the dict constructions in the source; control-character and
non-ASCII escapes elided — they do not affect round-trip truth).  The loader
heuristic runs the full `json.loads`; the model parser accepts the canonical
grammar, which is exactly what is needed both for the round-trip theorem and
for the counterexample. -/

/-- JSON string escaping of one character (`"` and `\` as in `json.dumps`;
control characters elided). -/
def encChar (c : Char) : Str := if c = '"' || c = '\\' then ['\\', c] else [c]

/-- `json.dumps` of a string value. -/
def encStr (s : Str) : Str := '"' :: ((s.map encChar).flatten ++ ['"'])

/-- A serialized object key: `"k": `. -/
def keyLit (k : Str) : Str := encStr k ++ (": ".data)

def ROLE_SEG : Str := '{' :: keyLit ("role".data)
def CONTENT_SEG : Str := (", ".data) ++ keyLit ("content".data)
def CALLS_SEG : Str := (", ".data) ++ keyLit ("tool_calls".data)
def TCID_SEG : Str := (", ".data) ++ keyLit ("tool_call_id".data)
def NAME_SEG : Str := (", ".data) ++ keyLit ("name".data)
def CALL_SEG1 : Str := '{' :: keyLit ("id".data)
def CALL_SEG2 : Str :=
  (", ".data) ++ keyLit ("type".data) ++ encStr ("function".data) ++
    (", ".data) ++ keyLit ("function".data) ++ ('{' :: keyLit ("name".data))
def CALL_SEG3 : Str := (", ".data) ++ keyLit ("arguments".data)
def CALL_SEG4 : Str := ['}', '}']

/-- `json.dumps` of one `tool_calls` entry
`{"id": …, "type": "function", "function": {"name": …, "arguments": …}}`. -/
def dumpsToolCallRec (c : ToolCallRec) : Str :=
  CALL_SEG1 ++ encStr c.id ++ CALL_SEG2 ++ encStr c.name ++ CALL_SEG3 ++
    encStr c.arguments ++ CALL_SEG4

/-- Comma-joined `tool_calls` entries. -/
def dumpsCallsAux : List ToolCallRec → Str
  | [] => []
  | [c] => dumpsToolCallRec c
  | c :: rest => dumpsToolCallRec c ++ (", ".data) ++ dumpsCallsAux rest

/-- `json.dumps` of the `tool_calls` array. -/
def dumpsCalls (calls : List ToolCallRec) : Str := '[' :: (dumpsCallsAux calls ++ [']'])

/-- `json.dumps(message_dict)` for an assistant message with tool calls
(key order as constructed: role, content, tool_calls). -/
def dumpsToolCallMsg (content : Str) (calls : List ToolCallRec) : Str :=
  ROLE_SEG ++ encStr ("assistant".data) ++ CONTENT_SEG ++ encStr content ++
    CALLS_SEG ++ dumpsCalls calls ++ ['}']

/-- `json.dumps(tool_result_dict)` (key order as constructed in
`cmd_terrarium`: role, tool_call_id, name, content). -/
def dumpsToolResult (id name content : Str) : Str :=
  ROLE_SEG ++ encStr ("tool".data) ++ TCID_SEG ++ encStr id ++ NAME_SEG ++
    encStr name ++ CONTENT_SEG ++ encStr content ++ ['}']

/-- Persist one turn as a `(role, content)` row, as the `add_*` methods do. -/
def persistTurn : Turn → Str × Str
  | .plain r c => (r, c)
  | .toolCall c calls => (("assistant".data), dumpsToolCallMsg c calls)
  | .toolResult i n c => (("tool".data), dumpsToolResult i n c)

/-- The rows appended to `conversation_history` for a sequence of turns. -/
def persistTurns (ts : List Turn) : List (Str × Str) := ts.map persistTurn

/-- Consume an exact literal prefix. -/
def expectLit : Str → Str → Option Str
  | [], s => some s
  | _ :: _, [] => Option.none
  | l :: ls, c :: cs => if l = c then expectLit ls cs else Option.none

/-- Body of a JSON string literal up to the closing quote, undoing the
escapes `encChar` introduces; the flag records a just-seen backslash. -/
def parseJStrAuxF : Bool → Str → Option (Str × Str)
  | _, [] => Option.none
  | true, d :: rest => (parseJStrAuxF false rest).map (fun p => (d :: p.1, p.2))
  | false, c :: rest =>
    if c = '"' then some ([], rest)
    else if c = '\\' then parseJStrAuxF true rest
    else (parseJStrAuxF false rest).map (fun p => (c :: p.1, p.2))

/-- A JSON string literal including its opening quote. -/
def parseQuoted : Str → Option (Str × Str)
  | '"' :: rest => parseJStrAuxF false rest
  | _ => Option.none

/-- One `tool_calls` entry in the canonical serialized shape. -/
def parseCallRec (s : Str) : Option (ToolCallRec × Str) :=
  match expectLit CALL_SEG1 s with
  | Option.none => Option.none
  | some s1 =>
    match parseQuoted s1 with
    | Option.none => Option.none
    | some (idv, s2) =>
      match expectLit CALL_SEG2 s2 with
      | Option.none => Option.none
      | some s3 =>
        match parseQuoted s3 with
        | Option.none => Option.none
        | some (namev, s4) =>
          match expectLit CALL_SEG3 s4 with
          | Option.none => Option.none
          | some s5 =>
            match parseQuoted s5 with
            | Option.none => Option.none
            | some (argv, s6) =>
              match expectLit CALL_SEG4 s6 with
              | Option.none => Option.none
              | some s7 => some (⟨idv, namev, argv⟩, s7)

/-- Nonempty comma-separated call list followed by `']'`. -/
def parseCallsAux : Nat → Str → Option (List ToolCallRec × Str)
  | 0, _ => Option.none
  | fuel + 1, s =>
    match parseCallRec s with
    | Option.none => Option.none
    | some (c, s1) =>
      match s1 with
      | ']' :: rest => some ([c], rest)
      | ',' :: ' ' :: rest => (parseCallsAux fuel rest).map (fun p => (c :: p.1, p.2))
      | _ => Option.none

/-- The `tool_calls` array. -/
def parseCalls (fuel : Nat) : Str → Option (List ToolCallRec × Str)
  | '[' :: ']' :: rest => some ([], rest)
  | '[' :: rest => parseCallsAux fuel rest
  | _ => Option.none

/-- Reader for the *canonical* serializations `persistTurn` itself emits
(the exact `": "`/`", "` spacing and `role`-first key order that
`json.dumps` produces in `add_tool_call_message` / `add_tool_result`):
`{"role": r, "content": c}`, `{"role": "assistant", "content": c,
"tool_calls": […]}` and `{"role": "tool", "tool_call_id": i, "name": n,
"content": c}`, requiring the whole input consumed.  This is *not* a model
of `json.loads` on arbitrary strings: the real `json.loads` also accepts
other spacings, key orders and value shapes.  The round-trip theorem below
therefore only ever reaches this reader on strings produced by
`persistTurn`, which are canonical; its hypothesis (`plainNotBraced`)
keeps every other content out of the brace-guarded branch of `load`. -/
def parseTurnJson (s : Str) : Option Turn :=
  match expectLit ROLE_SEG s with
  | Option.none => Option.none
  | some s1 =>
    match parseQuoted s1 with
    | Option.none => Option.none
    | some (role, s2) =>
      match expectLit CONTENT_SEG s2 with
      | some s3 =>
        match parseQuoted s3 with
        | Option.none => Option.none
        | some (content, s4) =>
          if s4 = ['}'] then some (.plain role content)
          else
            match expectLit CALLS_SEG s4 with
            | Option.none => Option.none
            | some s5 =>
              match parseCalls s5.length s5 with
              | Option.none => Option.none
              | some (calls, s6) =>
                if s6 = ['}'] ∧ role = ("assistant".data) then
                  some (.toolCall content calls)
                else Option.none
      | Option.none =>
        match expectLit TCID_SEG s2 with
        | Option.none => Option.none
        | some s3 =>
          match parseQuoted s3 with
          | Option.none => Option.none
          | some (idv, s4) =>
            match expectLit NAME_SEG s4 with
            | Option.none => Option.none
            | some s5 =>
              match parseQuoted s5 with
              | Option.none => Option.none
              | some (namev, s6) =>
                match expectLit CONTENT_SEG s6 with
                | Option.none => Option.none
                | some s7 =>
                  match parseQuoted s7 with
                  | Option.none => Option.none
                  | some (contentv, s8) =>
                    if s8 = ['}'] ∧ role = ("tool".data) then
                      some (.toolResult idv namev contentv)
                    else Option.none

/-- The rehydration heuristic of `ChannelContext.load` for one row.  The
brace pre-check `stripped.startswith("{") and stripped.endswith("}")` is
modelled exactly; when it fails the row is kept verbatim as a plain turn,
exactly as in the source.  When it succeeds, the source runs full
`json.loads`; here that step is modelled by `parseTurnJson`, which agrees
with `json.loads` on every string `persistTurn` emits but not on arbitrary
braced text — so statements about `tryHydrate` are only transferred to the
program either on non-braced contents (where the parse is never reached) or
on `persistTurn`'s own output. -/
def tryHydrate (role content : Str) : Turn :=
  if Py.startsWith ['{'] (Py.strip content) && Py.endsWith ['}'] (Py.strip content) then
    match parseTurnJson (Py.strip content) with
    | some t => if t.roleOf = role then t else .plain role content
    | Option.none => .plain role content
  else .plain role content

/-- `ChannelContext.load`: hydrate every stored row, in order. -/
def loadTurns (rows : List (Str × Str)) : List Turn :=
  rows.map (fun rc => tryHydrate rc.1 rc.2)

/-! ### Round-trip lemmas (claim C2) -/

lemma expectLit_self (lit rest : Str) : expectLit lit (lit ++ rest) = some rest := by
  induction lit with
  | nil => rfl
  | cons l ls ih => simp [expectLit, ih]

lemma expectLit_mismatch (pre : Str) (a b : Char) (hab : a ≠ b) (as bs : Str) :
    expectLit (pre ++ a :: as) (pre ++ b :: bs) = Option.none := by
  induction pre with
  | nil => simp [expectLit, hab]
  | cons c p ih => simp [expectLit, ih]

lemma parseJStrAux_enc (s rest : Str) :
    parseJStrAuxF false ((s.map encChar).flatten ++ '"' :: rest) = some (s, rest) := by
  induction s with
  | nil => simp [parseJStrAuxF]
  | cons c cs ih =>
      simp only [List.map_cons, List.flatten_cons, List.append_assoc]
      by_cases h : c = '"' ∨ c = '\\'
      · have he : encChar c = ['\\', c] := by
          unfold encChar
          rcases h with h | h <;> simp [h]
        rw [he]
        simp [parseJStrAuxF, ih]
      · push_neg at h
        have he : encChar c = [c] := by
          unfold encChar
          simp [h.1, h.2]
        rw [he]
        simp [parseJStrAuxF, h.1, h.2, ih]

lemma parseQuoted_enc (s rest : Str) : parseQuoted (encStr s ++ rest) = some (s, rest) := by
  have h : encStr s ++ rest = '"' :: ((s.map encChar).flatten ++ '"' :: rest) := by
    simp [encStr, List.append_assoc]
  rw [h, parseQuoted, parseJStrAux_enc]

lemma parseCallRec_dumps (c : ToolCallRec) (rest : Str) :
    parseCallRec (dumpsToolCallRec c ++ rest) = some (c, rest) := by
  cases c with
  | mk idv namev argv =>
      unfold dumpsToolCallRec parseCallRec
      simp only [List.append_assoc, expectLit_self, parseQuoted_enc]

lemma dumpsToolCallRec_len (c : ToolCallRec) : 1 ≤ (dumpsToolCallRec c).length := by
  simp [dumpsToolCallRec, CALL_SEG1, List.length_append]

lemma parseCallsAux_dumps : ∀ (calls : List ToolCallRec) (rest : Str) (fuel : Nat),
    calls ≠ [] → calls.length ≤ fuel →
    parseCallsAux fuel (dumpsCallsAux calls ++ ']' :: rest) = some (calls, rest) := by
  intro calls
  induction calls with
  | nil => intro rest fuel h _; exact absurd rfl h
  | cons c cs ih =>
      intro rest fuel _ hlen
      cases fuel with
      | zero => simp at hlen
      | succ f =>
          cases cs with
          | nil =>
              simp only [dumpsCallsAux, parseCallsAux, parseCallRec_dumps]
          | cons c2 cs2 =>
              simp only [dumpsCallsAux, List.append_assoc, List.cons_append,
                List.nil_append, parseCallsAux, parseCallRec_dumps]
              rw [ih rest f (by simp) (by simpa using Nat.le_of_succ_le_succ hlen)]
              rfl

lemma dumpsCallsAux_head (c : ToolCallRec) (cs : List ToolCallRec) :
    ∃ t, dumpsCallsAux (c :: cs) = '{' :: t := by
  cases cs with
  | nil =>
      refine ⟨keyLit ("id".data) ++ encStr c.id ++ CALL_SEG2 ++ encStr c.name ++
        CALL_SEG3 ++ encStr c.arguments ++ CALL_SEG4, ?_⟩
      simp [dumpsCallsAux, dumpsToolCallRec, CALL_SEG1, List.append_assoc]
  | cons c2 cs2 =>
      refine ⟨keyLit ("id".data) ++ encStr c.id ++ CALL_SEG2 ++ encStr c.name ++
        CALL_SEG3 ++ encStr c.arguments ++ CALL_SEG4 ++ (", ".data) ++
        dumpsCallsAux (c2 :: cs2), ?_⟩
      simp [dumpsCallsAux, dumpsToolCallRec, CALL_SEG1, List.append_assoc]

lemma parseCalls_dumps (calls : List ToolCallRec) (rest : Str) (fuel : Nat)
    (hlen : calls.length ≤ fuel) :
    parseCalls fuel (dumpsCalls calls ++ rest) = some (calls, rest) := by
  cases calls with
  | nil => simp [dumpsCalls, dumpsCallsAux, parseCalls]
  | cons c cs =>
      obtain ⟨t, ht⟩ := dumpsCallsAux_head c cs
      have hform : dumpsCalls (c :: cs) ++ rest = '[' :: '{' :: (t ++ ']' :: rest) := by
        simp [dumpsCalls, ht, List.append_assoc]
      rw [hform]
      show parseCallsAux fuel ('{' :: (t ++ ']' :: rest)) = some (c :: cs, rest)
      have hback : '{' :: (t ++ ']' :: rest) = dumpsCallsAux (c :: cs) ++ ']' :: rest := by
        simp [ht]
      rw [hback, parseCallsAux_dumps (c :: cs) rest fuel (by simp) hlen]

lemma dumpsCallsAux_len : ∀ (calls : List ToolCallRec),
    calls.length ≤ (dumpsCallsAux calls).length := by
  intro calls
  induction calls with
  | nil => simp [dumpsCallsAux]
  | cons c cs ih =>
      cases cs with
      | nil =>
          have h := dumpsToolCallRec_len c
          simp [dumpsCallsAux]
          omega
      | cons c2 cs2 =>
          have h1 := dumpsToolCallRec_len c
          simp only [dumpsCallsAux, List.length_append, List.length_cons] at ih ⊢
          omega

lemma contentSeg_vs_tcid (X : Str) : expectLit CONTENT_SEG (TCID_SEG ++ X) = Option.none := by
  have h1 : CONTENT_SEG = [',', ' ', '"'] ++ 'c' :: ("ontent\": ".data) := by decide
  have h2 : TCID_SEG = [',', ' ', '"'] ++ 't' :: ("ool_call_id\": ".data) := by decide
  rw [h1, h2, List.append_assoc, List.cons_append]
  exact expectLit_mismatch [',', ' ', '"'] 'c' 't' (by decide) _ _

lemma parseTurn_toolCallMsg (content : Str) (calls : List ToolCallRec) :
    parseTurnJson (dumpsToolCallMsg content calls) = some (Turn.toolCall content calls) := by
  have hlen : CALLS_SEG.length = 16 := by decide
  have hne : (CALLS_SEG ++ (dumpsCalls calls ++ ['}'])) ≠ ['}'] := by
    intro h
    have hl := congrArg List.length h
    simp only [List.length_append, List.length_cons, List.length_nil, hlen] at hl
    omega
  have hfuel : calls.length ≤ (dumpsCalls calls ++ ['}']).length := by
    have := dumpsCallsAux_len calls
    simp only [dumpsCalls, List.length_append, List.length_cons]
    omega
  unfold dumpsToolCallMsg parseTurnJson
  simp only [List.append_assoc, expectLit_self, parseQuoted_enc, hne, if_false,
    parseCalls_dumps calls ['}'] _ hfuel]
  simp

lemma parseTurn_toolResult (i n c : Str) :
    parseTurnJson (dumpsToolResult i n c) = some (Turn.toolResult i n c) := by
  unfold dumpsToolResult parseTurnJson
  simp only [List.append_assoc, expectLit_self, parseQuoted_enc, contentSeg_vs_tcid]
  simp

lemma strip_braced (mid : Str) : Py.strip ('{' :: (mid ++ ['}'])) = '{' :: (mid ++ ['}']) := by
  have h1 : List.dropWhile Py.isWs ('{' :: (mid ++ ['}'])) = '{' :: (mid ++ ['}']) := by
    simp [List.dropWhile_cons, Py.isWs]
  have h2 : ('{' :: (mid ++ ['}'])).reverse = '}' :: (mid.reverse ++ ['{']) := by
    simp [List.reverse_append]
  have h3 : List.dropWhile Py.isWs ('}' :: (mid.reverse ++ ['{'])) = '}' :: (mid.reverse ++ ['{']) := by
    simp [List.dropWhile_cons, Py.isWs]
  unfold Py.strip
  rw [h1, h2, h3, ← h2, List.reverse_reverse]

lemma dumpsToolCallMsg_shape (content : Str) (calls : List ToolCallRec) :
    dumpsToolCallMsg content calls =
      '{' :: ((keyLit ("role".data) ++ encStr ("assistant".data) ++ CONTENT_SEG ++
        encStr content ++ CALLS_SEG ++ dumpsCalls calls) ++ ['}']) := by
  simp [dumpsToolCallMsg, ROLE_SEG, List.append_assoc]

lemma dumpsToolResult_shape (i n c : Str) :
    dumpsToolResult i n c =
      '{' :: ((keyLit ("role".data) ++ encStr ("tool".data) ++ TCID_SEG ++ encStr i ++
        NAME_SEG ++ encStr n ++ CONTENT_SEG ++ encStr c) ++ ['}']) := by
  simp [dumpsToolResult, ROLE_SEG, List.append_assoc]

lemma startsWith_brace (t : Str) : Py.startsWith ['{'] ('{' :: t) = true := by
  simp [Py.startsWith, List.isPrefixOf]

lemma endsWith_brace (t : Str) : Py.endsWith ['}'] ('{' :: (t ++ ['}'])) = true := by
  simp [Py.endsWith, List.isSuffixOf, List.reverse_append, List.isPrefixOf]

lemma tryHydrate_toolCallMsg (content : Str) (calls : List ToolCallRec) :
    tryHydrate ("assistant".data) (dumpsToolCallMsg content calls) =
      Turn.toolCall content calls := by
  unfold tryHydrate
  rw [dumpsToolCallMsg_shape, strip_braced, startsWith_brace, endsWith_brace,
    ← dumpsToolCallMsg_shape, parseTurn_toolCallMsg]
  simp [Turn.roleOf]

lemma tryHydrate_toolResult (i n c : Str) :
    tryHydrate ("tool".data) (dumpsToolResult i n c) = Turn.toolResult i n c := by
  unfold tryHydrate
  rw [dumpsToolResult_shape, strip_braced, startsWith_brace, endsWith_brace,
    ← dumpsToolResult_shape, parseTurn_toolResult]
  simp [Turn.roleOf]

/-- A *superset* of the whitespace characters Python's `str.strip()`
removes (all of `\t\n\v\f\r`, `U+001C`-`U+001F`, space, `U+0085`, `U+00A0`,
`U+1680`, `U+2000`-`U+200A`, `U+2028`, `U+2029`, `U+202F`, `U+205F` and
`U+3000` are covered, along with a few extra control and format characters;
`'\x7b'` and `'\x7d'` are not in it).  Stripping this larger set is used
only to *state* the round-trip hypothesis: a content that is not
brace-delimited after trimming this superset is a fortiori not
brace-delimited after the real `str.strip`, so `load` never attempts
`json.loads` on it. -/
def uniWsSup (c : Char) : Bool :=
  decide (c.toNat ≤ 0x20) || decide (0x7f ≤ c.toNat ∧ c.toNat ≤ 0xa0) ||
  decide (c.toNat = 0x1680) || decide (c.toNat = 0x180e) ||
  decide (0x2000 ≤ c.toNat ∧ c.toNat ≤ 0x200f) ||
  decide (0x2028 ≤ c.toNat ∧ c.toNat ≤ 0x202f) ||
  decide (c.toNat = 0x205f) || decide (c.toNat = 0x2060) ||
  decide (c.toNat = 0x3000) || decide (c.toNat = 0xfeff)

/-- Trim `uniWsSup` characters from both ends. -/
def stripUni (s : Str) : Str :=
  ((s.dropWhile uniWsSup).reverse.dropWhile uniWsSup).reverse

/-- Over-approximation of `load`'s sniffing pre-check: the content, trimmed
of a superset of Python's strip whitespace, is brace-delimited. -/
def sniffGuardUB (c : Str) : Bool :=
  Py.startsWith ['\x7b'] (stripUni c) && Py.endsWith ['\x7d'] (stripUni c)

lemma uniWsSup_of_isWs (c : Char) (h : Py.isWs c = true) : uniWsSup c = true := by
  unfold Py.isWs at h
  simp only [Bool.or_eq_true, decide_eq_true_eq] at h
  rcases h with ((((h | h) | h) | h) | h) | h <;> subst h <;> decide

lemma dropWhile_subset_absorb (p q : Char → Bool)
    (hpq : ∀ a, p a = true → q a = true) (l : Str) :
    List.dropWhile q (List.dropWhile p l) = List.dropWhile q l := by
  induction l with
  | nil => rfl
  | cons c l ih =>
    by_cases hp : p c = true
    · rw [List.dropWhile_cons, if_pos hp, ih, List.dropWhile_cons, if_pos (hpq c hp)]
    · rw [List.dropWhile_cons, if_neg hp]

lemma exists_cons_of_isPrefixOf_singleton (a : Char) (s : Str)
    (h : [a].isPrefixOf s = true) : ∃ t, s = a :: t := by
  cases s with
  | nil => simp [List.isPrefixOf] at h
  | cons b t =>
    simp [List.isPrefixOf] at h
    exact ⟨t, by rw [h]⟩

/-- When the ASCII-stripped content is brace-delimited, trimming the larger
whitespace set removes exactly the same characters: both strips agree. -/
lemma stripUni_eq_strip_of_braced (c : Str)
    (hs : Py.startsWith ['\x7b'] (Py.strip c) = true)
    (he : Py.endsWith ['\x7d'] (Py.strip c) = true) :
    stripUni c = Py.strip c := by
  have hs2 : ['\x7b'].isPrefixOf (Py.strip c) = true := hs
  have he2 : ['\x7d'].isPrefixOf (Py.strip c).reverse = true := by
    unfold Py.endsWith at he
    simpa [List.isSuffixOf] using he
  obtain ⟨t, ht⟩ := exists_cons_of_isPrefixOf_singleton '\x7b' (Py.strip c) hs2
  obtain ⟨u, hu⟩ := exists_cons_of_isPrefixOf_singleton '\x7d' (Py.strip c).reverse he2
  have hg : List.dropWhile Py.isWs (List.dropWhile Py.isWs c).reverse =
      (Py.strip c).reverse := by
    unfold Py.strip
    rw [List.reverse_reverse]
  obtain ⟨pre, hpre⟩ : ∃ pre,
      pre ++ List.dropWhile Py.isWs (List.dropWhile Py.isWs c).reverse =
        (List.dropWhile Py.isWs c).reverse :=
    List.dropWhile_suffix _
  have hdEq : List.dropWhile Py.isWs c = '\x7b' :: (t ++ pre.reverse) := by
    have h1 : (List.dropWhile Py.isWs c).reverse = pre ++ (Py.strip c).reverse := by
      rw [← hg, hpre]
    have h2 : List.dropWhile Py.isWs c = Py.strip c ++ pre.reverse := by
      calc List.dropWhile Py.isWs c
          = (List.dropWhile Py.isWs c).reverse.reverse := (List.reverse_reverse _).symm
        _ = (pre ++ (Py.strip c).reverse).reverse := by rw [h1]
        _ = (Py.strip c).reverse.reverse ++ pre.reverse := by rw [List.reverse_append]
        _ = Py.strip c ++ pre.reverse := by rw [List.reverse_reverse]
    rw [h2, ht]
    rfl
  have hDropUni : List.dropWhile uniWsSup c = List.dropWhile Py.isWs c := by
    have habs := dropWhile_subset_absorb Py.isWs uniWsSup uniWsSup_of_isWs c
    rw [← habs, hdEq, List.dropWhile_cons, if_neg (by decide)]
  have hgUni : List.dropWhile uniWsSup (List.dropWhile Py.isWs c).reverse =
      List.dropWhile Py.isWs (List.dropWhile Py.isWs c).reverse := by
    have habs := dropWhile_subset_absorb Py.isWs uniWsSup uniWsSup_of_isWs
      (List.dropWhile Py.isWs c).reverse
    rw [← habs, hg, hu, List.dropWhile_cons, if_neg (by decide)]
  unfold stripUni
  rw [hDropUni, hgUni, hg, List.reverse_reverse]

/-- A content whose over-approximated sniffing guard is off is kept verbatim
by the rehydration heuristic: the real loader never even calls `json.loads`
on it, and neither does the model. -/
lemma tryHydrate_plain_of_notBraced (r c : Str) (h : sniffGuardUB c = false) :
    tryHydrate r c = Turn.plain r c := by
  have hneg : ¬((Py.startsWith ['\x7b'] (Py.strip c) &&
      Py.endsWith ['\x7d'] (Py.strip c)) = true) := by
    intro hb
    rw [Bool.and_eq_true] at hb
    obtain ⟨h1, h2⟩ := hb
    have heq := stripUni_eq_strip_of_braced c h1 h2
    unfold sniffGuardUB at h
    rw [heq, h1, h2] at h
    simp at h
  unfold tryHydrate
  rw [if_neg hneg]

/-- The round-trip hypothesis: each plain turn's content, even after
trimming a superset of the whitespace `str.strip` removes, is not
brace-delimited — so `load` keeps the row verbatim without attempting any
JSON parse.  Tool-bearing turns satisfy this trivially (their persisted
rows are `persistTurn`'s own canonical braced output, which hydrates back
structurally). -/
def plainNotBraced : Turn → Prop
  | .plain _ c => sniffGuardUB c = false
  | .toolCall _ _ => True
  | .toolResult _ _ _ => True

instance : DecidablePred plainNotBraced := fun t =>
  match t with
  | .plain _ c => (inferInstance : Decidable (sniffGuardUB c = false))
  | .toolCall _ _ => isTrue trivial
  | .toolResult _ _ _ => isTrue trivial

/-- **C2 (amended).** Persisting any sequence of plain, tool-call and
tool-result turns and reloading it reproduces the sequence exactly — same
roles, same structured tool-call and tool-result fields, same order —
*provided* no plain turn's content, once trimmed of surrounding whitespace,
both starts with `'\x7b'` and ends with `'\x7d'`.  On brace-delimited plain
contents `load` runs `json.loads` and may replace the turn by the parsed
object (see the counterexample); on all other contents it never attempts a
parse, so the row survives verbatim.  The hypothesis trims a superset of
`str.strip`'s whitespace, so it soundly rules out every content the real
loader would sniff. -/
theorem c2_roundTrip_amended (seq : List Turn)
    (hplain : ∀ t ∈ seq, plainNotBraced t) :
    loadTurns (persistTurns seq) = seq := by
  induction seq with
  | nil => rfl
  | cons t ts ih =>
      have hts : ∀ u ∈ ts, plainNotBraced u :=
        fun u hu => hplain u (List.mem_cons_of_mem _ hu)
      have hrest := ih hts
      cases t with
      | plain r c =>
          have hguard : sniffGuardUB c = false :=
            hplain (Turn.plain r c) (List.mem_cons_self ..)
          have hp : tryHydrate r c = Turn.plain r c :=
            tryHydrate_plain_of_notBraced r c hguard
          simp [persistTurns, loadTurns, persistTurn, hp] at hrest ⊢
          exact hrest
      | toolCall c calls =>
          simp [persistTurns, loadTurns, persistTurn] at hrest ⊢
          exact ⟨tryHydrate_toolCallMsg c calls, hrest⟩
      | toolResult i n c =>
          simp [persistTurns, loadTurns, persistTurn] at hrest ⊢
          exact ⟨tryHydrate_toolResult i n c, hrest⟩

/-- **C2 counterexample.** The claim fails as stated for a plain user turn
whose text happens to be the JSON object `{"role": "user", "content": "hi"}`:
after a save/reload cycle the turn comes back as a plain turn with content
`"hi"` — the original content is lost, so the reloaded sequence is not
isomorphic to the persisted one. -/
theorem c2_roundTrip_counterexample :
    loadTurns (persistTurns [Turn.plain ("user".data)
        ("\x7b\"role\": \"user\", \"content\": \"hi\"\x7d".data)])
      = [Turn.plain ("user".data) ("hi".data)] ∧
    loadTurns (persistTurns [Turn.plain ("user".data)
        ("\x7b\"role\": \"user\", \"content\": \"hi\"\x7d".data)])
      ≠ [Turn.plain ("user".data)
        ("\x7b\"role\": \"user\", \"content\": \"hi\"\x7d".data)] := by
  constructor
  · decide
  · decide

/-- Witness for `c2_roundTrip_amended` on a four-turn sequence containing a
plain user turn, an assistant tool-call turn with two calls, a tool-result
turn and a plain assistant turn. -/
theorem c2_roundTrip_witness :
    (∀ t ∈ ([Turn.plain ("user".data) ("hello there".data),
        Turn.toolCall [] [⟨("call_1".data), ("search_chat_logs".data),
          ("\x7b\"query\": \"docker\"\x7d".data)⟩,
          ⟨("call_2".data), ("get_current_users".data), ("\x7b\x7d".data)⟩],
        Turn.toolResult ("call_1".data) ("search_chat_logs".data)
          ("<tool_result>stuff</tool_result>".data),
        Turn.plain ("assistant".data) ("done \"quote\" and \\ backslash".data)] : List Turn),
      plainNotBraced t) ∧
    loadTurns (persistTurns [Turn.plain ("user".data) ("hello there".data),
        Turn.toolCall [] [⟨("call_1".data), ("search_chat_logs".data),
          ("\x7b\"query\": \"docker\"\x7d".data)⟩,
          ⟨("call_2".data), ("get_current_users".data), ("\x7b\x7d".data)⟩],
        Turn.toolResult ("call_1".data) ("search_chat_logs".data)
          ("<tool_result>stuff</tool_result>".data),
        Turn.plain ("assistant".data) ("done \"quote\" and \\ backslash".data)])
      = [Turn.plain ("user".data) ("hello there".data),
        Turn.toolCall [] [⟨("call_1".data), ("search_chat_logs".data),
          ("\x7b\"query\": \"docker\"\x7d".data)⟩,
          ⟨("call_2".data), ("get_current_users".data), ("\x7b\x7d".data)⟩],
        Turn.toolResult ("call_1".data) ("search_chat_logs".data)
          ("<tool_result>stuff</tool_result>".data),
        Turn.plain ("assistant".data) ("done \"quote\" and \\ backslash".data)] :=
  ⟨by decide, c2_roundTrip_amended _ (by decide)⟩

/-! ## `ToolExecutor._read_enhancement_request` (src/llm/tool_executor.py lines 259-280, claim C5)

The filesystem is modelled as a partial map from rendered absolute POSIX path
strings to file contents.  `Path.resolve()` is modelled lexically (`.` and
empty segments skipped, `..` pops; symlinks out of scope); the process
working directory is the fixed `CWD`.  The guard in the source is a plain
string-prefix test `str(target).startswith(str(base))`.  Filenames are
modelled as relative paths (an absolute filename replaces the whole path in
`pathlib` but is rejected or not-found either way). -/

/-- Lexical `Path.resolve()` over path components. -/
def resolveComponents (segs : List Str) : List Str :=
  segs.foldl (fun acc seg =>
    if seg = [] || seg = (".".data) then acc
    else if seg = ("..".data) then acc.dropLast
    else acc ++ [seg]) []

/-- Render components as an absolute POSIX path string. -/
def renderPath (comps : List Str) : Str :=
  '/' :: (List.intercalate ("/".data) comps)

/-- The fixed process working directory of the model. -/
def CWD : List Str := [("home".data), ("bot".data)]

def splitSlash (s : Str) : List Str := Py.splitOnChar '/' s

/-- `json.dumps({"error": msg})`. -/
def jsonErr (msg : Str) : Str := '{' :: (keyLit ("error".data) ++ encStr msg ++ ['}'])

/-- Digits of a natural number (for the truncation marker). -/
def natToStr (n : Nat) : Str := (toString n).data

/-- `_read_enhancement_request(arguments)` with `filename` the raw
`arguments.get("filename") or ""` value and `fs` the filesystem. -/
def readEnhancementRequest (fs : Str → Option Str) (filename : Str) : Str :=
  let fname := Py.strip filename
  if fname = [] then jsonErr ("filename is required".data)
  else
    let target := resolveComponents (CWD ++ splitSlash ("data/enhancements".data) ++ splitSlash fname)
    let base := resolveComponents (CWD ++ splitSlash ("data/enhancements".data))
    if !(Py.startsWith (renderPath base) (renderPath target)) then
      jsonErr ("Invalid filename".data)
    else
      match fs (renderPath target) with
      | Option.none => jsonErr (("File '".data) ++ fname ++ ("' not found".data))
      | some content =>
        let truncated :=
          if content.length ≤ 4000 then content
          else content.take 4000 ++ ("... (".data) ++ natToStr content.length ++
            (" chars total)".data)
        '{' :: (keyLit ("result".data) ++ encStr ("ok".data) ++ (", ".data) ++
          keyLit ("file".data) ++ encStr fname ++ (", ".data) ++
          keyLit ("content".data) ++ encStr truncated ++ ['}'])

/-- A filesystem with one file in the *sibling* directory
`data/enhancementsX`, whose rendered path extends the store root's rendered
path as a string. -/
def fsSibling : Str → Option Str := fun p =>
  if p = renderPath (CWD ++ [("data".data), ("enhancementsX".data), ("n.md".data)]) then
    some ("SECRET".data)
  else Option.none

/-- **C5 (code bug).** The path-traversal guard is a string-prefix test
without a trailing separator, so a filename that resolves into the *sibling*
directory `data/enhancementsX` — outside the note store root
`data/enhancements` (the root's components are not a prefix of the target's
components) — passes the guard and the tool returns the file's content
payload instead of a structured error.  A genuine escape such as
`../../secret.txt` is still rejected, confirming the guard's intent. -/
theorem c5_readEnhancement_code_bug :
    (List.isPrefixOf (resolveComponents (CWD ++ splitSlash ("data/enhancements".data)))
      (resolveComponents (CWD ++ splitSlash ("data/enhancements".data) ++
        splitSlash ("../enhancementsX/n.md".data))) = false) ∧
    readEnhancementRequest fsSibling ("../enhancementsX/n.md".data)
      = '{' :: (keyLit ("result".data) ++ encStr ("ok".data) ++ (", ".data) ++
          keyLit ("file".data) ++ encStr ("../enhancementsX/n.md".data) ++ (", ".data) ++
          keyLit ("content".data) ++ encStr ("SECRET".data) ++ ['}']) ∧
    readEnhancementRequest fsSibling ("../../secret.txt".data)
      = jsonErr ("Invalid filename".data) ∧
    readEnhancementRequest fsSibling ("nope.md".data)
      = jsonErr (("File '".data) ++ ("nope.md".data) ++ ("' not found".data)) := by
  refine ⟨by decide, by decide, by decide, by decide⟩

/-! ## The conversational orchestrator (src/bot/commands.py `cmd_terrarium`,
src/llm/context_manager.py `ChannelContext`; claims C1, C4, C7, C10)

The Model Endpoint is modelled at the §6 interface boundary: the loop's chat
call as a sequence of per-iteration results (`loopChat`), the summarizer's
chat call as a function of its request messages (`sumChat`); both either
return a response or fail (AgentClientError — connection/timeout/4xx/5xx
collapsed into one failure kind, since only success-vs-failure drives control
flow).  The in-repo `AgentClient.chat` signature lags the call sites (no
`tools=` parameter), and the `Database` summary/truncation methods used by
`context_manager.py` are absent from `database.py`; both collaborators are
therefore taken at the spec's interface.
`ToolExecutor.execute_tool` is abstracted as a total function from tool name
and serialized arguments to the result string (its `json.loads`-with-`{}`
fallback argument parsing happens inside that boundary; per §7 tool failures
never escape the executor).  Console prints, the transport sends and the
response finisher are not state and are not modelled here (the finisher is
`splitLongResponse` above). -/

/-- A Model Endpoint response: `{role: assistant, content, tool_calls?}` with
`response_message.get("tool_calls") or []` already applied. -/
structure ModelResponse where
  content : Str
  tool_calls : List ToolCallRec
deriving DecidableEq, Repr

/-- An endpoint failure (`AgentClientError`). -/
structure EndpointErr where
  msg : Str
deriving DecidableEq, Repr

/-- Per-channel conversation state: in-memory history and summary plus their
durable counterparts (the `conversation_history` rows and the stored
summary). -/
structure ChanState where
  history : List Turn
  summary : Option Str
  dbRows : List (Str × Str)
  dbSummary : Option Str
deriving DecidableEq, Repr

/-- `ChannelContext.add_user_message`. -/
def addUserMessage (st : ChanState) (content : Str) : ChanState :=
  { st with history := st.history ++ [Turn.plain ("user".data) content],
            dbRows := st.dbRows ++ [(("user".data), content)] }

/-- `ChannelContext.add_assistant_message`. -/
def addAssistantMessage (st : ChanState) (content : Str) : ChanState :=
  { st with history := st.history ++ [Turn.plain ("assistant".data) content],
            dbRows := st.dbRows ++ [(("assistant".data), content)] }

/-- `ChannelContext.add_tool_call_message`. -/
def addToolCallMessage (st : ChanState) (content : Str) (calls : List ToolCallRec) : ChanState :=
  { st with history := st.history ++ [Turn.toolCall content calls],
            dbRows := st.dbRows ++ [persistTurn (Turn.toolCall content calls)] }

/-- `ChannelContext.add_tool_result`. -/
def addToolResult (st : ChanState) (i n c : Str) : ChanState :=
  { st with history := st.history ++ [Turn.toolResult i n c],
            dbRows := st.dbRows ++ [persistTurn (Turn.toolResult i n c)] }

def SUMMARY_TRIGGER_TURNS : Nat := 40
def SUMMARY_RETAIN_TURNS : Nat := 12
def SUMMARY_INPUT_CHAR_LIMIT : Nat := 4000

/-- `ChannelContext._format_turns_for_summary`. -/
def formatTurnsForSummary (turns : List Turn) : Str :=
  let text := List.intercalate ("\n".data)
    (turns.map (fun t => (t.roleOf.map Char.toUpper) ++ (": ".data) ++ t.contentOf))
  if text.length > SUMMARY_INPUT_CHAR_LIMIT then
    text.drop (text.length - SUMMARY_INPUT_CHAR_LIMIT)
  else text

def summarizerInstruction : Str :=
  ("You are Terra-irc's memory compressor. Summarize the following conversation into key facts, outstanding questions, and any tool usage/results that Terra should remember. Be concise (<= 8 sentences) and omit trivial greetings.".data)

/-- `ChannelContext.maybe_summarize`.  The durable effects of the successful
branch use two `Database` methods that are absent from `src/storage/database.py`
(`save_conversation_summary`, `keep_latest_conversation_turns`); those two
writes are *modelled from the spec*: `save_summary(channel, text)` stores the
new summary and `truncate_conversation(channel, keep_last_n)` keeps the last
`RETAIN` rows (§6 Transcript Store contract, §4.1 `maybe_compact`). -/
def maybeSummarize (sumChat : List Turn → Except EndpointErr Str)
    (st : ChanState) : ChanState :=
  if st.history.length ≤ SUMMARY_TRIGGER_TURNS then st
  else
    let turnsToSummarize := st.history.take (st.history.length - SUMMARY_RETAIN_TURNS)
    if turnsToSummarize = [] then st
    else
      let payload := formatTurnsForSummary turnsToSummarize
      let messages := [Turn.plain ("system".data) summarizerInstruction,
        Turn.plain ("user".data) payload]
      match sumChat messages with
      | .error _ => st
      | .ok responseContent =>
        let summaryText := Py.strip responseContent
        if summaryText = [] then st
        else
          { history := st.history.drop (st.history.length - SUMMARY_RETAIN_TURNS),
            summary := some summaryText,
            dbRows := st.dbRows.drop (st.dbRows.length - SUMMARY_RETAIN_TURNS),
            dbSummary := some summaryText }

/-- The persona prompt of `ChannelContext._build_system_prompt`, abbreviated
to its opening words: no claim depends on its content, only on its position
as the first system turn. -/
def buildSystemPrompt : Str := ("You are Terra, an IRC participant.".data)

/-- `ChannelContext.get_messages_for_api`: system prompt, optional summary
block, optional rendered `<irc_logs>` block (the transcript-store query and
its timestamped rendering are external input here), then the conversation
history.  `if self.summary:` is Python truthiness: an empty summary is
absent. -/
def getMessagesForApi (st : ChanState) (ircBlock : Option Str) : List Turn :=
  [Turn.plain ("system".data) buildSystemPrompt] ++
  (match st.summary with
   | some s =>
     if s = [] then []
     else [Turn.plain ("system".data)
       (("<conversation_summary>\n".data) ++ s ++ ("\n</conversation_summary>".data))]
   | Option.none => []) ++
  (match ircBlock with
   | some b => [Turn.plain ("system".data) b]
   | Option.none => []) ++
  st.history

/-- The message list sent on the first loop iteration: the assembled context
plus the extra appended user turn (`messages.append({...})` in
`cmd_terrarium`). -/
def requestMessages (sumChat : List Turn → Except EndpointErr Str)
    (ircBlock : Option Str) (args : Str) (st0 : ChanState) : List Turn :=
  let st2 := maybeSummarize sumChat (addUserMessage st0 args)
  getMessagesForApi st2 ircBlock ++ [Turn.plain ("user".data) args]

def cannedApology : Str :=
  ("Sorry, I couldn't complete that request because I hit the maximum number of tool iterations. Try simplifying the request or ask again.".data)

def warningText (remaining : Nat) : Str :=
  ("Tool usage warning: you have ".data) ++ natToStr remaining ++
    (" more tool iterations before the harness stops. Please wrap up as soon as possible.".data)

/-- `json.dumps` of a coerced fallback value (float rendering modelled as the
rational's own printing; no claim inspects it). -/
def dumpsPyVal : PyVal → Str
  | .str s => encStr s
  | .int n => (toString n).data
  | .float q => (toString q).data
  | .bool b => if b then ("true".data) else ("false".data)
  | .none => ("null".data)

/-- `json.dumps(fallback_args)`. -/
def dumpsArgs (args : List (Str × PyVal)) : Str :=
  '{' :: (List.intercalate (", ".data)
    (args.map (fun kv => keyLit kv.1 ++ dumpsPyVal kv.2)) ++ ['}'])

/-- The tool calls acted on in one iteration: the structured `tool_calls`
when present, otherwise the single call synthesized by the fallback parser
(`uuid.uuid4().hex` is an opaque id source `idGen`; the `metadata` flag is
elided). -/
def effectiveCalls (idGen : Nat → Str) (iter : Nat) (r : ModelResponse) : List ToolCallRec :=
  if r.tool_calls ≠ [] then r.tool_calls
  else
    match parseFallbackToolRequest r.content with
    | some (n, args) => [⟨("fallback_".data) ++ idGen iter, n, dumpsArgs args⟩]
    | Option.none => []

/-- Result of the tool-calling loop: the final response (`none` when the
ceiling was hit), the working message list, and the conversation state; or a
propagating endpoint failure with the state at that point. -/
inductive LoopOut
  | ok (finalResponse : Option Str) (msgs : List Turn) (st : ChanState)
  | failed (e : EndpointErr) (msgs : List Turn) (st : ChanState)
deriving DecidableEq, Repr

/-- The `while iteration < max_iterations` loop of `cmd_terrarium`:
`remaining` counts iterations left, `iter` those already begun (so the
current pass is iteration `iter + 1`).  Each pass optionally injects the
single warning turn, computes the token budget, calls the endpoint, and
either records the assistant tool-call turn and every tool-result turn and
continues, or stops with the model's final text. -/
def runLoop (loopChat : Nat → Except EndpointErr ModelResponse)
    (execTool : Str → Str → Str) (idGen : Nat → Str) :
    Nat → Nat → Bool → List Turn → ChanState → LoopOut
  | 0, _, _, msgs, st => .ok Option.none msgs st
  | remaining + 1, iter, warned, msgs, st =>
    let iterN := iter + 1
    let msgs1 :=
      if !warned && iterN = TOOL_WARNING_ITERATION then
        msgs ++ [Turn.plain ("system".data)
          (warningText (MAX_TOOL_ITERATIONS - iterN + 1))]
      else msgs
    let warned1 := if !warned && iterN = TOOL_WARNING_ITERATION then true else warned
    let _budget := determineMaxTokens msgs1
    match loopChat iter with
    | .error e => .failed e msgs1 st
    | .ok response =>
      let calls := effectiveCalls idGen iter response
      if calls = [] then .ok (some response.content) msgs1 st
      else
        let st1 := addToolCallMessage st response.content calls
        let msgs2 := msgs1 ++ [Turn.toolCall response.content calls]
        let acc := calls.foldl (fun (acc : List Turn × ChanState) c =>
          let result := execTool c.name c.arguments
          (acc.1 ++ [Turn.toolResult c.id c.name result],
            addToolResult acc.2 c.id c.name result)) (msgs2, st1)
        runLoop loopChat execTool idGen remaining iterN warned1 acc.1 acc.2

/-- Outcome handed to the transport layer by `cmd_terrarium`. -/
inductive CmdOutcome
  | usage
  | final (text : Str)
  | error (msg : Str)
deriving DecidableEq, Repr

/-- `CommandHandler.cmd_terrarium`: usage check, record the user turn,
maybe summarize, assemble the request messages, run the tool loop, fall back
to the canned apology at the ceiling, record the final assistant turn; any
exception is caught and surfaced as an `Error: …` message with the state as
it was at the failure point. -/
def cmdTerrarium (sumChat : List Turn → Except EndpointErr Str)
    (loopChat : Nat → Except EndpointErr ModelResponse)
    (execTool : Str → Str → Str) (idGen : Nat → Str)
    (ircBlock : Option Str) (args : Str) (st0 : ChanState) : CmdOutcome × ChanState :=
  if args = [] then (.usage, st0)
  else
    let st1 := addUserMessage st0 args
    let st2 := maybeSummarize sumChat st1
    let messages := getMessagesForApi st2 ircBlock ++ [Turn.plain ("user".data) args]
    match runLoop loopChat execTool idGen MAX_TOOL_ITERATIONS 0 false messages st2 with
    | .failed e _ stF => (.error (("Error: ".data) ++ e.msg), stF)
    | .ok finalOpt _ stF =>
      let finalResponse := match finalOpt with
        | some t => t
        | Option.none => cannedApology
      let st3 := addAssistantMessage stF finalResponse
      (.final finalResponse, st3)

/-- **C7 (confirmed).** Whenever the Model Endpoint call made by
`maybe_summarize` fails, the method is a no-op: in-memory history and
summary and their durable counterparts are all left exactly as they were,
and the `AgentClientError` is caught inside the method (the function is
total — no exception propagates). -/
theorem c7_maybeSummarize_noop (sumChat : List Turn → Except EndpointErr Str)
    (st : ChanState) (hfail : ∀ msgs, ∃ e, sumChat msgs = .error e) :
    maybeSummarize sumChat st = st := by
  unfold maybeSummarize
  split
  · rfl
  · dsimp only
    split
    · rfl
    · obtain ⟨e, he⟩ := hfail _
      rw [he]

/-- A fixed sample state with 41 turns (above the summarization trigger), so
the witness exercises the branch that actually reaches the endpoint call. -/
def sampleBusyState : ChanState :=
  { history := List.replicate 41 (Turn.plain ("user".data) ("m".data)),
    summary := Option.none,
    dbRows := List.replicate 41 ((("user".data), ("m".data))),
    dbSummary := Option.none }

/-- Witness for `c7_maybeSummarize_noop` with an always-failing endpoint and
a state long enough to trigger summarization. -/
theorem c7_maybeSummarize_noop_witness :
    (∀ msgs : List Turn,
      ∃ e, (fun (_ : List Turn) =>
        (Except.error ⟨("Cannot connect to http://localhost:8080".data)⟩ :
          Except EndpointErr Str)) msgs = .error e) ∧
    maybeSummarize (fun _ =>
        .error ⟨("Cannot connect to http://localhost:8080".data)⟩) sampleBusyState
      = sampleBusyState :=
  ⟨fun _ => ⟨_, rfl⟩,
    c7_maybeSummarize_noop _ sampleBusyState (fun _ => ⟨_, rfl⟩)⟩

/-- **C4 counterexample.** With the endpoint down, `cmd_terrarium` does send
the error message, but the conversation state is *not* left unchanged: the
user's turn — recorded by `add_user_message` before the model call — remains
in both the in-memory history and the durable rows. -/
theorem c4_state_counterexample :
    (cmdTerrarium (fun _ => .error ⟨("Cannot connect to http://localhost:8080".data)⟩)
        (fun _ => .error ⟨("Cannot connect to http://localhost:8080".data)⟩)
        (fun _ _ => []) (fun _ => []) Option.none ("hi".data)
        ⟨[], Option.none, [], Option.none⟩).1
      = CmdOutcome.error (("Error: Cannot connect to http://localhost:8080".data)) ∧
    (cmdTerrarium (fun _ => .error ⟨("Cannot connect to http://localhost:8080".data)⟩)
        (fun _ => .error ⟨("Cannot connect to http://localhost:8080".data)⟩)
        (fun _ _ => []) (fun _ => []) Option.none ("hi".data)
        ⟨[], Option.none, [], Option.none⟩).2.history
      = [Turn.plain ("user".data) ("hi".data)] ∧
    [Turn.plain ("user".data) ("hi".data)] ≠ ([] : List Turn) := by
  refine ⟨by decide, by decide, by decide⟩

/-- **C4 (amended).** If the Model Endpoint is unreachable (the summarizer's
call fails, and the loop's first call fails with error `e`), the user is sent
the short error message `Error: …` and no exception propagates, but the
conversation state is not rolled back: it is exactly the prior state plus the
user's turn, which `add_user_message` recorded before the model call.  No
assistant or tool turn from the failed request is recorded. -/
theorem c4_transport_failure_amended (st0 : ChanState) (args : Str) (e : EndpointErr)
    (sumChat : List Turn → Except EndpointErr Str)
    (loopChat : Nat → Except EndpointErr ModelResponse)
    (execTool : Str → Str → Str) (idGen : Nat → Str) (ircBlock : Option Str)
    (hargs : args ≠ [])
    (hsum : ∀ msgs, ∃ e', sumChat msgs = .error e')
    (hloop : loopChat 0 = .error e) :
    cmdTerrarium sumChat loopChat execTool idGen ircBlock args st0
      = (CmdOutcome.error (("Error: ".data) ++ e.msg), addUserMessage st0 args) := by
  unfold cmdTerrarium
  rw [if_neg hargs]
  dsimp only
  rw [c7_maybeSummarize_noop sumChat _ hsum,
    show MAX_TOOL_ITERATIONS = 7 + 1 from rfl]
  simp only [runLoop, hloop]

/-- Witness for `c4_transport_failure_amended` at a concrete request. -/
theorem c4_transport_failure_witness :
    (("ask".data) ≠ ([] : Str) ∧
      (∀ msgs : List Turn,
        ∃ e', (fun (_ : List Turn) =>
          (Except.error ⟨("timeout".data)⟩ : Except EndpointErr Str)) msgs = .error e') ∧
      (fun (_ : Nat) =>
        (Except.error ⟨("timeout".data)⟩ : Except EndpointErr ModelResponse)) 0
        = .error ⟨("timeout".data)⟩) ∧
    cmdTerrarium (fun _ => .error ⟨("timeout".data)⟩) (fun _ => .error ⟨("timeout".data)⟩)
        (fun _ _ => []) (fun _ => []) Option.none ("ask".data)
        ⟨[], Option.none, [], Option.none⟩
      = (CmdOutcome.error (("Error: ".data) ++ ("timeout".data)),
        addUserMessage ⟨[], Option.none, [], Option.none⟩ ("ask".data)) :=
  ⟨⟨by decide, fun _ => ⟨_, rfl⟩, rfl⟩,
    c4_transport_failure_amended _ _ _ _ _ _ _ _ (by decide) (fun _ => ⟨_, rfl⟩) rfl⟩

/-! ### The duplicated user turn (claim C10) -/

/-- `maybe_summarize` either leaves the history alone or truncates it to a
proper suffix (dropping fewer elements than the history's length). -/
lemma maybeSummarize_history_cases (sumChat : List Turn → Except EndpointErr Str)
    (st : ChanState) :
    (maybeSummarize sumChat st).history = st.history ∨
    ∃ n, n < st.history.length ∧
      (maybeSummarize sumChat st).history = st.history.drop n := by
  unfold maybeSummarize
  split
  · exact Or.inl rfl
  · rename_i hlen
    dsimp only
    split
    · exact Or.inl rfl
    · rcases hc : sumChat _ with e | responseContent
      · exact Or.inl rfl
      · dsimp only
        split
        · exact Or.inl rfl
        · refine Or.inr ⟨st.history.length - SUMMARY_RETAIN_TURNS, ?_, rfl⟩
          unfold SUMMARY_TRIGGER_TURNS at hlen
          unfold SUMMARY_RETAIN_TURNS
          omega

lemma foldl_chars_dup (front : List Turn) (u : Turn) :
    (front ++ [u, u]).foldl (fun acc m => acc + m.contentOf.length + 8) 0
      = front.foldl (fun acc m => acc + m.contentOf.length + 8) 0
        + 2 * (u.contentOf.length + 8) := by
  rw [List.foldl_append]
  simp [List.foldl]
  ring

/-- **C10 (confirmed).** For every non-empty input, the message list built by
`cmd_terrarium` for the first model call ends with the requesting user's
message *twice*: once as the last element of the conversation history
assembled by `get_messages_for_api` (because `add_user_message` appended it
to the history before assembly — and even a successful summarization retains
the last 12 turns, so it survives compaction), and once as the extra user
turn appended after assembly.  Consequently the character total underlying
`_estimate_prompt_tokens` counts that turn twice. -/
theorem c10_duplicate_user_turn (sumChat : List Turn → Except EndpointErr Str)
    (ircBlock : Option Str) (args : Str) (st0 : ChanState) (hargs : args ≠ []) :
    ∃ front,
      requestMessages sumChat ircBlock args st0
        = front ++ [Turn.plain ("user".data) args, Turn.plain ("user".data) args] ∧
      (requestMessages sumChat ircBlock args st0).foldl
          (fun acc m => acc + m.contentOf.length + 8) 0
        = front.foldl (fun acc m => acc + m.contentOf.length + 8) 0
          + 2 * (args.length + 8) := by
  obtain ⟨H, hH⟩ : ∃ H,
      (maybeSummarize sumChat (addUserMessage st0 args)).history
        = H ++ [Turn.plain ("user".data) args] := by
    rcases maybeSummarize_history_cases sumChat (addUserMessage st0 args) with h2 | ⟨n, hn, h2⟩
    · exact ⟨st0.history, h2⟩
    · refine ⟨st0.history.drop n, ?_⟩
      rw [h2]
      show (st0.history ++ [Turn.plain ("user".data) args]).drop n = _
      rw [List.drop_append_of_le_length]
      have : (addUserMessage st0 args).history.length = st0.history.length + 1 := by
        simp [addUserMessage]
      omega
  have heq : requestMessages sumChat ircBlock args st0 =
      ([Turn.plain ("system".data) buildSystemPrompt] ++
        (match (maybeSummarize sumChat (addUserMessage st0 args)).summary with
         | some s =>
           if s = [] then []
           else [Turn.plain ("system".data)
             (("<conversation_summary>\n".data) ++ s ++ ("\n</conversation_summary>".data))]
         | Option.none => []) ++
        (match ircBlock with
         | some b => [Turn.plain ("system".data) b]
         | Option.none => []) ++ H) ++
      [Turn.plain ("user".data) args, Turn.plain ("user".data) args] := by
    unfold requestMessages getMessagesForApi
    dsimp only
    rw [hH]
    simp [List.append_assoc]
  refine ⟨_, heq, ?_⟩
  rw [heq, foldl_chars_dup]
  rfl

/-- Witness for `c10_duplicate_user_turn` at a concrete request. -/
theorem c10_duplicate_user_turn_witness :
    (("hi".data) ≠ ([] : Str)) ∧
    (∃ front,
      requestMessages (fun _ => .error ⟨[]⟩) Option.none ("hi".data)
          ⟨[], Option.none, [], Option.none⟩
        = front ++ [Turn.plain ("user".data) ("hi".data),
            Turn.plain ("user".data) ("hi".data)] ∧
      (requestMessages (fun _ => .error ⟨[]⟩) Option.none ("hi".data)
          ⟨[], Option.none, [], Option.none⟩).foldl
          (fun acc m => acc + m.contentOf.length + 8) 0
        = front.foldl (fun acc m => acc + m.contentOf.length + 8) 0
          + 2 * (("hi".data).length + 8)) :=
  ⟨by decide, c10_duplicate_user_turn _ _ _ _ (by decide)⟩

/-! ### Loop termination and the single final text (claim C1) -/

/-- The first iteration index in `[iter, iter + remaining)` whose (effective)
tool-call list is empty — the iteration where the loop stops with a
model-produced final text. -/
def firstFinalFrom (idGen : Nat → Str) (responses : Nat → ModelResponse)
    (iter remaining : Nat) : Option Nat :=
  (List.range' iter remaining).find?
    (fun i => decide (effectiveCalls idGen i (responses i) = []))

/-- How many tool-executing iterations the loop performs before stopping. -/
def toolIterSpan (idGen : Nat → Str) (responses : Nat → ModelResponse)
    (iter remaining : Nat) : Nat :=
  match firstFinalFrom idGen responses iter remaining with
  | some i => i - iter
  | Option.none => remaining

/-- The turns recorded during tool-executing iteration `i`: the assistant
tool-call turn followed by one tool-result turn per call, in order. -/
def iterTurns (idGen : Nat → Str) (execTool : Str → Str → Str)
    (responses : Nat → ModelResponse) (i : Nat) : List Turn :=
  let calls := effectiveCalls idGen i (responses i)
  Turn.toolCall (responses i).content calls ::
    calls.map (fun c => Turn.toolResult c.id c.name (execTool c.name c.arguments))

/-- All turns recorded by `k` tool-executing iterations starting at `iter`. -/
def loopNewTurns (idGen : Nat → Str) (execTool : Str → Str → Str)
    (responses : Nat → ModelResponse) (iter k : Nat) : List Turn :=
  ((List.range' iter k).map (iterTurns idGen execTool responses)).flatten

lemma foldl_toolResults (execTool : Str → Str → Str) :
    ∀ (calls : List ToolCallRec) (msgs : List Turn) (st : ChanState),
    (calls.foldl (fun (acc : List Turn × ChanState) c =>
      (acc.1 ++ [Turn.toolResult c.id c.name (execTool c.name c.arguments)],
        addToolResult acc.2 c.id c.name (execTool c.name c.arguments))) (msgs, st))
      = (msgs ++ calls.map (fun c => Turn.toolResult c.id c.name (execTool c.name c.arguments)),
        { st with
          history := st.history ++
            calls.map (fun c => Turn.toolResult c.id c.name (execTool c.name c.arguments)),
          dbRows := st.dbRows ++
            (calls.map (fun c => Turn.toolResult c.id c.name (execTool c.name c.arguments))).map
              persistTurn }) := by
  intro calls
  induction calls with
  | nil =>
      intro msgs st
      cases st
      simp
  | cons c cs ih =>
      intro msgs st
      simp only [List.foldl_cons]
      rw [ih]
      cases st
      simp [addToolResult, List.append_assoc]

def LoopOut.finalOf : LoopOut → Option (Option Str)
  | .ok f _ _ => some f
  | .failed _ _ _ => Option.none

def LoopOut.stateOf : LoopOut → ChanState
  | .ok _ _ s => s
  | .failed _ _ s => s

lemma runLoop_total_isOk (responses : Nat → ModelResponse) (execTool : Str → Str → Str)
    (idGen : Nat → Str) : ∀ (remaining iter : Nat) (warned : Bool)
    (msgs : List Turn) (st : ChanState),
    ∃ f m s, runLoop (fun i => .ok (responses i)) execTool idGen remaining iter warned msgs st
      = LoopOut.ok f m s := by
  intro remaining
  induction remaining with
  | zero => intro iter warned msgs st; exact ⟨Option.none, msgs, st, rfl⟩
  | succ r ih =>
      intro iter warned msgs st
      by_cases hc : effectiveCalls idGen iter (responses iter) = []
      · simp only [runLoop, hc]
        exact ⟨_, _, _, rfl⟩
      · simp only [runLoop, hc]
        apply ih

lemma firstFinalFrom_stop (idGen : Nat → Str) (responses : Nat → ModelResponse)
    (iter r : Nat) (hc : effectiveCalls idGen iter (responses iter) = []) :
    firstFinalFrom idGen responses iter (r + 1) = some iter := by
  unfold firstFinalFrom
  rw [show List.range' iter (r + 1) = iter :: List.range' (iter + 1) r from rfl]
  simp [List.find?, hc]

lemma firstFinalFrom_go (idGen : Nat → Str) (responses : Nat → ModelResponse)
    (iter r : Nat) (hc : ¬ effectiveCalls idGen iter (responses iter) = []) :
    firstFinalFrom idGen responses iter (r + 1)
      = firstFinalFrom idGen responses (iter + 1) r := by
  unfold firstFinalFrom
  rw [show List.range' iter (r + 1) = iter :: List.range' (iter + 1) r from rfl]
  simp [List.find?, hc]

lemma toolIterSpan_stop (idGen : Nat → Str) (responses : Nat → ModelResponse)
    (iter r : Nat) (hc : effectiveCalls idGen iter (responses iter) = []) :
    toolIterSpan idGen responses iter (r + 1) = 0 := by
  unfold toolIterSpan
  rw [firstFinalFrom_stop idGen responses iter r hc]
  show iter - iter = 0
  omega

lemma toolIterSpan_go (idGen : Nat → Str) (responses : Nat → ModelResponse)
    (iter r : Nat) (hc : ¬ effectiveCalls idGen iter (responses iter) = []) :
    toolIterSpan idGen responses iter (r + 1)
      = toolIterSpan idGen responses (iter + 1) r + 1 := by
  unfold toolIterSpan
  rw [firstFinalFrom_go idGen responses iter r hc]
  cases hff : firstFinalFrom idGen responses (iter + 1) r with
  | none => rfl
  | some i =>
      have hmem := List.mem_of_find?_eq_some hff
      have hb := List.mem_range'_1.mp hmem
      show i - iter = i - (iter + 1) + 1
      omega

lemma loopNewTurns_zero (idGen : Nat → Str) (execTool : Str → Str → Str)
    (responses : Nat → ModelResponse) (iter : Nat) :
    loopNewTurns idGen execTool responses iter 0 = [] := rfl

lemma loopNewTurns_succ (idGen : Nat → Str) (execTool : Str → Str → Str)
    (responses : Nat → ModelResponse) (iter k : Nat) :
    loopNewTurns idGen execTool responses iter (k + 1)
      = iterTurns idGen execTool responses iter ++
        loopNewTurns idGen execTool responses (iter + 1) k := by
  unfold loopNewTurns
  rw [show List.range' iter (k + 1) = iter :: List.range' (iter + 1) k from rfl]
  simp

lemma runLoop_total_finalOf (responses : Nat → ModelResponse) (execTool : Str → Str → Str)
    (idGen : Nat → Str) : ∀ (remaining iter : Nat) (warned : Bool)
    (msgs : List Turn) (st : ChanState),
    (runLoop (fun i => .ok (responses i)) execTool idGen remaining iter warned msgs st).finalOf
      = some ((firstFinalFrom idGen responses iter remaining).map
          (fun i => (responses i).content)) := by
  intro remaining
  induction remaining with
  | zero => intro iter warned msgs st; rfl
  | succ r ih =>
      intro iter warned msgs st
      by_cases hc : effectiveCalls idGen iter (responses iter) = []
      · simp only [runLoop, hc]
        rw [firstFinalFrom_stop idGen responses iter r hc]
        rfl
      · simp only [runLoop, hc]
        rw [if_neg not_false, ih, firstFinalFrom_go idGen responses iter r hc]

lemma runLoop_total_stateOf (responses : Nat → ModelResponse) (execTool : Str → Str → Str)
    (idGen : Nat → Str) : ∀ (remaining iter : Nat) (warned : Bool)
    (msgs : List Turn) (st : ChanState),
    (runLoop (fun i => .ok (responses i)) execTool idGen remaining iter warned msgs st).stateOf
      = { st with
          history := st.history ++ loopNewTurns idGen execTool responses iter
            (toolIterSpan idGen responses iter remaining),
          dbRows := st.dbRows ++ (loopNewTurns idGen execTool responses iter
            (toolIterSpan idGen responses iter remaining)).map persistTurn } := by
  intro remaining
  induction remaining with
  | zero =>
      intro iter warned msgs st
      show st = _
      have h0 : toolIterSpan idGen responses iter 0 = 0 := rfl
      rw [h0, loopNewTurns_zero]
      cases st
      simp
  | succ r ih =>
      intro iter warned msgs st
      by_cases hc : effectiveCalls idGen iter (responses iter) = []
      · simp only [runLoop, hc]
        rw [toolIterSpan_stop idGen responses iter r hc, loopNewTurns_zero]
        show st = _
        cases st
        simp
      · simp only [runLoop, hc]
        rw [if_neg not_false, foldl_toolResults]
        dsimp only
        rw [ih, toolIterSpan_go idGen responses iter r hc, loopNewTurns_succ]
        unfold addToolCallMessage iterTurns
        cases st
        simp [List.append_assoc, List.map_append]

/-- The single final text of a request, per the loop characterization: the
first no-tool-call response's content, or the canned apology at the
ceiling. -/
def c1FinalText (idGen : Nat → Str) (responses : Nat → ModelResponse) : Str :=
  match firstFinalFrom idGen responses 0 MAX_TOOL_ITERATIONS with
  | some i => (responses i).content
  | Option.none => cannedApology

lemma runLoop_total_full (responses : Nat → ModelResponse) (execTool : Str → Str → Str)
    (idGen : Nat → Str) (remaining iter : Nat) (warned : Bool)
    (msgs : List Turn) (st : ChanState) :
    ∃ msgsF, runLoop (fun i => .ok (responses i)) execTool idGen remaining iter warned msgs st
      = LoopOut.ok
          ((firstFinalFrom idGen responses iter remaining).map (fun i => (responses i).content))
          msgsF
          { st with
            history := st.history ++ loopNewTurns idGen execTool responses iter
              (toolIterSpan idGen responses iter remaining),
            dbRows := st.dbRows ++ (loopNewTurns idGen execTool responses iter
              (toolIterSpan idGen responses iter remaining)).map persistTurn } := by
  obtain ⟨f, m, s, hok⟩ :=
    runLoop_total_isOk responses execTool idGen remaining iter warned msgs st
  have hf := runLoop_total_finalOf responses execTool idGen remaining iter warned msgs st
  have hs := runLoop_total_stateOf responses execTool idGen remaining iter warned msgs st
  rw [hok] at hf hs
  simp only [LoopOut.finalOf] at hf
  simp only [LoopOut.stateOf] at hs
  refine ⟨m, ?_⟩
  rw [hok, Option.some.inj hf, hs]

/-- **C1 (confirmed).** For every sequence of (successful) model responses,
`cmd_terrarium`'s tool-calling loop terminates within the 8-iteration ceiling
and the command yields exactly one final text: the content of the first
response within the ceiling that carries no tool calls (structured or
fallback-synthesized — §4.2's fallback detection runs before the transition
check), otherwise the canned apology.  No exception propagates (the result is
a total function value), and the conversation state ends as: the state after
the user turn and optional summarization, plus every tool-call/tool-result
turn of every iteration before the stopping point — retained in order in both
the in-memory history and the durable rows — plus the final assistant turn. -/
theorem c1_loop_terminates (sumChat : List Turn → Except EndpointErr Str)
    (responses : Nat → ModelResponse) (execTool : Str → Str → Str) (idGen : Nat → Str)
    (ircBlock : Option Str) (args : Str) (st0 : ChanState) (hargs : args ≠ []) :
    cmdTerrarium sumChat (fun i => .ok (responses i)) execTool idGen ircBlock args st0
      = (CmdOutcome.final (c1FinalText idGen responses),
        { maybeSummarize sumChat (addUserMessage st0 args) with
          history := (maybeSummarize sumChat (addUserMessage st0 args)).history
            ++ loopNewTurns idGen execTool responses 0
                (toolIterSpan idGen responses 0 MAX_TOOL_ITERATIONS)
            ++ [Turn.plain ("assistant".data) (c1FinalText idGen responses)],
          dbRows := (maybeSummarize sumChat (addUserMessage st0 args)).dbRows
            ++ (loopNewTurns idGen execTool responses 0
                (toolIterSpan idGen responses 0 MAX_TOOL_ITERATIONS)).map persistTurn
            ++ [(("assistant".data), c1FinalText idGen responses)] }) := by
  unfold cmdTerrarium
  rw [if_neg hargs]
  dsimp only
  obtain ⟨msgsF, hok⟩ := runLoop_total_full responses execTool idGen MAX_TOOL_ITERATIONS 0 false
    (getMessagesForApi (maybeSummarize sumChat (addUserMessage st0 args)) ircBlock ++
      [Turn.plain ("user".data) args])
    (maybeSummarize sumChat (addUserMessage st0 args))
  rw [hok]
  dsimp only
  have hfr : (match (firstFinalFrom idGen responses 0 MAX_TOOL_ITERATIONS).map
        (fun i => (responses i).content) with
      | some t => t
      | Option.none => cannedApology) = c1FinalText idGen responses := by
    unfold c1FinalText
    cases firstFinalFrom idGen responses 0 MAX_TOOL_ITERATIONS <;> rfl
  rw [hfr]
  unfold addAssistantMessage
  simp [List.append_assoc]

/-- Witness for `c1_loop_terminates`: a concrete request whose first model
response is plain text (no tool calls), run from an empty channel state. -/
theorem c1_loop_terminates_witness :
    (("hi".data) ≠ ([] : Str)) ∧
    cmdTerrarium (fun _ => .error ⟨[]⟩)
        (fun i => .ok ((fun _ => (⟨("hello".data), []⟩ : ModelResponse)) i))
        (fun _ _ => []) (fun _ => []) Option.none ("hi".data)
        ⟨[], Option.none, [], Option.none⟩
      = (CmdOutcome.final (c1FinalText (fun _ => [])
            (fun _ => (⟨("hello".data), []⟩ : ModelResponse))),
        { maybeSummarize (fun _ => .error ⟨[]⟩)
            (addUserMessage ⟨[], Option.none, [], Option.none⟩ ("hi".data)) with
          history := (maybeSummarize (fun _ => .error ⟨[]⟩)
              (addUserMessage ⟨[], Option.none, [], Option.none⟩ ("hi".data))).history
            ++ loopNewTurns (fun _ => []) (fun _ _ => [])
                (fun _ => (⟨("hello".data), []⟩ : ModelResponse)) 0
                (toolIterSpan (fun _ => [])
                  (fun _ => (⟨("hello".data), []⟩ : ModelResponse)) 0 MAX_TOOL_ITERATIONS)
            ++ [Turn.plain ("assistant".data) (c1FinalText (fun _ => [])
                (fun _ => (⟨("hello".data), []⟩ : ModelResponse)))],
          dbRows := (maybeSummarize (fun _ => .error ⟨[]⟩)
              (addUserMessage ⟨[], Option.none, [], Option.none⟩ ("hi".data))).dbRows
            ++ (loopNewTurns (fun _ => []) (fun _ _ => [])
                (fun _ => (⟨("hello".data), []⟩ : ModelResponse)) 0
                (toolIterSpan (fun _ => [])
                  (fun _ => (⟨("hello".data), []⟩ : ModelResponse)) 0 MAX_TOOL_ITERATIONS)).map
                  persistTurn
            ++ [(("assistant".data), c1FinalText (fun _ => [])
                (fun _ => (⟨("hello".data), []⟩ : ModelResponse)))] }) :=
  ⟨by decide, c1_loop_terminates _ _ _ _ _ _ _ (by decide)⟩
